import Mathlib

/-!
Verification development for the mediclaim-backend core subsystems.

This file gives a shallow embedding, in Lean 4, of the two core subsystems of
the repository and proves/refutes the frozen specification claims about them:

* the multi-source extraction reconciliation engine
  (`app/value_extractor.py`: `_normalize_text`, `_fuzzy_ratio`,
  `_descriptions_match`, `_round_half_away_from_zero`, `_choose_value_and_conf`,
  `_both_conf_over_90`, `_merge_headers`, `_greedy_match_pairs`,
  `_merge_line_items`), including a faithful embedding of CPython's
  `difflib.SequenceMatcher.ratio()` (isjunk = None, autojunk = True), which
  `_fuzzy_ratio` delegates to;

* the claims adjudication orchestrator
  (`app/rules_engine.py`: `adjudicate_claim`; `app/rules_utils.py`:
  `identify_non_payable_items`, `apply_policy_rule_with_llm_tools`;
  `app/pydantic_schemas.py`: `AdjudicatedLineItem.status`, `AdjudicatedClaim`).

Modelling conventions:

* Python floats are modelled as `ℚ`.  None of the settled claims hinges on
  IEEE-754 rounding; every arithmetic operation used by the code (`+`, `-`,
  `*`, `/`, `min`, comparisons) is mirrored exactly on `ℚ`.
* External AI/vector services (the "oracles": normalization, rule matching,
  rule application, embedding similarity) are opaque parameters.  The SBERT
  embedding-similarity branch of `_descriptions_match` is dead code in the
  source (the lazily initialised `_embed_model` singleton can only be set by
  `_get_embed_model`, which is only reachable through calls guarded by
  `_embed_model is not None`, so it is never called and the guard is always
  false); hence `emb = 0.0` there, which the embedding mirrors.
* Fallible code is modelled with `Except`.
* Python `str.lower()` is modelled by `Char.toLower`; they agree on ASCII,
  which covers every concrete string appearing in this development.
-/

namespace Mediclaim

/-- Python `str.split()` (no arguments) splits on runs of ASCII whitespace:
space, tab, newline, carriage return, vertical tab, form feed.  This predicate
recognises that whitespace set. -/
def pySpace (c : Char) : Bool :=
  c = ' ' || c = '\t' || c = '\n' || c = '\r' || c = Char.ofNat 11 || c = Char.ofNat 12

/-- The punctuation characters that `_normalize_text` replaces by spaces:
the Python string literal is `,;:()[]\x7b\x7d|/\"'` followed by
`~!@#$%^&*+=<>.?` (brace, quote, apostrophe and backtick written via
`Char.ofNat` here). -/
def punctChars : List Char :=
  [ ',', ';', ':', '(', ')', '[', ']', Char.ofNat 123, Char.ofNat 125,
    '|', '/', '\\', Char.ofNat 34, Char.ofNat 39, Char.ofNat 96,
    '~', '!', '@', '#', '$', '%', Char.ofNat 94, '&', '*', '+', '=',
    '<', '>', '.', '?' ]

/-- Helper for `pySplit`: accumulates the current (reversed) token while
scanning, emitting completed tokens at whitespace boundaries.  Mirrors the
behaviour of Python `str.split()` with no separator: runs of whitespace
delimit tokens and no empty tokens are produced. -/
def splitAux : List Char → List Char → List (List Char)
  | [], cur => if cur.isEmpty then [] else [cur.reverse]
  | c :: cs, cur =>
    if pySpace c then
      if cur.isEmpty then splitAux cs [] else cur.reverse :: splitAux cs []
    else splitAux cs (c :: cur)

/-- Python `str.split()` with no separator. -/
def pySplit (cs : List Char) : List (List Char) :=
  splitAux cs []

/-- Python `" ".join(tokens)`. -/
def joinSpace : List (List Char) → List Char
  | [] => []
  | [t] => t
  | t :: ts => t ++ ' ' :: joinSpace ts

/-- Python `str.strip()` with no argument: drop leading and trailing
whitespace. -/
def pyStrip (cs : List Char) : List Char :=
  ((cs.dropWhile pySpace).reverse.dropWhile pySpace).reverse

/-- Embedding of `_normalize_text` (value_extractor.py, lines 136-146) on the
character list level: strip and lowercase, collapse whitespace
(`" ".join(out.split())`), replace each punctuation character by a space
(`out.replace(ch, " ")` applied sequentially is equivalent to a single map,
because the replacement character is itself never punctuation), and collapse
whitespace again. -/
def normalizeChars (cs : List Char) : List Char :=
  let s1 := (pyStrip cs).map Char.toLower
  let s2 := joinSpace (pySplit s1)
  let s3 := s2.map (fun c => if punctChars.contains c then ' ' else c)
  joinSpace (pySplit s3)

/-- Embedding of `_normalize_text` on `String`.  The `None → ""` case of the
Python function is handled at each call site (callers pass `str(x or "")`). -/
def normalizeText (s : String) : String :=
  String.mk (normalizeChars s.toList)

/-- Lexicographic comparison of character lists by code point, matching
Python string `<=` used by `sorted` on the token set. -/
def tokenLe : List Char → List Char → Bool
  | [], _ => true
  | _ :: _, [] => false
  | a :: as, b :: bs => if a = b then tokenLe as bs else decide (a.toNat < b.toNat)

/-- Ordered insertion used by `sortTokens`. -/
def insertToken (t : List Char) : List (List Char) → List (List Char)
  | [] => [t]
  | u :: us => if tokenLe u t then u :: insertToken t us else t :: u :: us

/-- Insertion sort of tokens in ascending lexicographic order, matching
Python `sorted` on a set of (pairwise distinct) strings, whose ordering on
distinct elements is uniquely determined. -/
def sortTokens (ts : List (List Char)) : List (List Char) :=
  ts.foldl (fun acc t => insertToken t acc) []

/-- The `" ".join(sorted(set(_normalize_text(s).split())))` preprocessing
performed by `_fuzzy_ratio` (value_extractor.py, lines 149-155) on each
argument: normalized, tokenised, deduplicated, sorted, re-joined. -/
def fuzzyPrep (s : String) : List Char :=
  joinSpace (sortTokens ((pySplit (normalizeChars s.toList)).eraseDups))

/-!
Embedding of CPython `difflib.SequenceMatcher` with `isjunk = None` and
`autojunk = True` (the configuration used by `_fuzzy_ratio` via
`difflib.SequenceMatcher(None, ta, tb)`), reduced to what `ratio()` needs:
the total size of the matching blocks.

With `isjunk = None` the junk set `bjunk` is empty, so the two
junk-extension `while` loops at the end of `find_longest_match` (whose guards
require `isbjunk(...)` to be true) never execute and are omitted here.
-/

/-- The `b2j` table of `SequenceMatcher.__chain_b`, as a function: the
ascending list of positions of `c` in `b`, emptied for "popular" elements
when autojunk applies (`len(b) >= 200` and the element occurs more than
`len(b) // 100 + 1` times). -/
def b2jGet (b : List Char) (c : Char) : List ℕ :=
  let idxs := (b.enum.filter (fun p => p.2 = c)).map (fun p => p.1)
  if b.length ≥ 200 ∧ idxs.length > b.length / 100 + 1 then [] else idxs

/-- Association-list lookup with default 0, modelling `j2len.get(j-1, 0)`. -/
def lookupD (m : List (ℕ × ℕ)) (k : ℕ) : ℕ :=
  match m.find? (fun p => p.1 = k) with
  | some p => p.2
  | none => 0

/-- The inner loop of `find_longest_match`: for a fixed row `i`, walk the
ascending occurrence list `b2j[a[i]]`, skipping `j < blo` (`continue`),
stopping at `j >= bhi` (`break`), recording `newj2len[j] = j2len.get(j-1,0)+1`
and improving the best block on strict size increase.  The accumulator `acc`
is `newj2len`; since the occurrence list is strictly ascending, plain consing
never shadows an earlier entry. -/
def innerLoop (i blo bhi : ℕ) (j2len : List (ℕ × ℕ)) :
    List ℕ → List (ℕ × ℕ) → ℕ × ℕ × ℕ → List (ℕ × ℕ) × (ℕ × ℕ × ℕ)
  | [], acc, best => (acc, best)
  | j :: js, acc, best =>
    if j < blo then innerLoop i blo bhi j2len js acc best
    else if bhi ≤ j then (acc, best)
    else
      let k := (if j = 0 then 0 else lookupD j2len (j - 1)) + 1
      let best2 := if k > best.2.2 then (i + 1 - k, j + 1 - k, k) else best
      innerLoop i blo bhi j2len js ((j, k) :: acc) best2

/-- The main dynamic-programming loop of `find_longest_match`: fold the inner
loop over `i ∈ range(alo, ahi)`, threading `j2len` between rows.  Character
accesses are total via `List.getD` with an arbitrary default; all accesses
made on the ranges supplied by `matchesGo` are in bounds. -/
def mainLoop (a b : List Char) (alo ahi blo bhi : ℕ) : ℕ × ℕ × ℕ :=
  ((List.range' alo (ahi - alo)).foldl
    (fun st i => innerLoop i blo bhi st.1 (b2jGet b (a.getD i ' ')) [] st.2)
    ([], (alo, blo, 0))).2

/-- The first extension loop of `find_longest_match`: extend the best block
leftwards while the preceding characters agree.  Implemented with structural
fuel; called with fuel `besti - alo`, an upper bound on the number of
iterations (each iteration decrements `besti` and the guard requires
`alo < besti`), so the fuel never runs out before the guard fails. -/
def extendLeft (a b : List Char) (alo blo : ℕ) : ℕ → ℕ × ℕ × ℕ → ℕ × ℕ × ℕ
  | 0, best => best
  | fuel + 1, (bi, bj, bs) =>
    if alo < bi ∧ blo < bj ∧ a.getD (bi - 1) ' ' = b.getD (bj - 1) ' ' then
      extendLeft a b alo blo fuel (bi - 1, bj - 1, bs + 1)
    else (bi, bj, bs)

/-- The second extension loop of `find_longest_match`: extend the best block
rightwards while the following characters agree.  Fuel `ahi - (besti + bestsize)`
bounds the iteration count for the same reason as in `extendLeft`. -/
def extendRight (a b : List Char) (ahi bhi : ℕ) : ℕ → ℕ × ℕ × ℕ → ℕ × ℕ × ℕ
  | 0, best => best
  | fuel + 1, (bi, bj, bs) =>
    if bi + bs < ahi ∧ bj + bs < bhi ∧ a.getD (bi + bs) ' ' = b.getD (bj + bs) ' ' then
      extendRight a b ahi bhi fuel (bi, bj, bs + 1)
    else (bi, bj, bs)

/-- Embedding of `SequenceMatcher.find_longest_match(alo, ahi, blo, bhi)`
with empty junk set: the DP loop followed by the two non-junk extension
loops.  (The final two junk-extension loops of the CPython source are no-ops
here because `bjunk` is empty.) -/
def findLongestMatch (a b : List Char) (alo ahi blo bhi : ℕ) : ℕ × ℕ × ℕ :=
  let best := mainLoop a b alo ahi blo bhi
  let best2 := extendLeft a b alo blo (best.1 - alo) best
  extendRight a b ahi bhi (ahi - (best2.1 + best2.2.2)) best2

/-- Total size of the matching blocks found by
`SequenceMatcher.get_matching_blocks` restricted to the window
`(alo, ahi, blo, bhi)`.  The CPython implementation processes an explicit
LIFO queue of windows; each window is handled independently of the others, so
the block multiset (and hence the total size, which is all `ratio()` reads)
is the same as this direct recursion with the same window-splitting guards.
The bounds test mirrors the documented postcondition of
`find_longest_match` (`alo <= i <= i+k <= ahi` and `blo <= j <= j+k <= bhi`);
the `else 0` branch is unreachable.  Structural fuel: every recursive call
strictly shrinks `ahi - alo`, so fuel `a.length` (from `matchesTotal`)
suffices, and at fuel 0 the window is empty and the result 0 is exact. -/
def matchesGo (a b : List Char) : ℕ → ℕ → ℕ → ℕ → ℕ → ℕ
  | 0, _, _, _, _ => 0
  | fuel + 1, alo, ahi, blo, bhi =>
    let m := findLongestMatch a b alo ahi blo bhi
    let i := m.1
    let j := m.2.1
    let k := m.2.2
    if k = 0 then 0
    else if alo ≤ i ∧ i + k ≤ ahi ∧ blo ≤ j ∧ j + k ≤ bhi then
      k + (if alo < i ∧ blo < j then matchesGo a b fuel alo i blo j else 0)
        + (if i + k < ahi ∧ j + k < bhi then matchesGo a b fuel (i + k) ahi (j + k) bhi else 0)
    else 0

/-- The `matches` quantity of `SequenceMatcher.ratio()`: total size of all
matching blocks over the full sequences. -/
def matchesTotal (a b : List Char) : ℕ :=
  matchesGo a b a.length 0 a.length 0 b.length

/-- Embedding of `_fuzzy_ratio` (value_extractor.py, lines 149-155):
`difflib.SequenceMatcher(None, ta, tb).ratio()` on the sorted-unique-token
strings, i.e. `2 * matches / (len(ta) + len(tb))`, and 1.0 for two empty
sequences (difflib `_calculate_ratio`). -/
def fuzzyScore (sa sb : String) : ℚ :=
  let ta := fuzzyPrep sa
  let tb := fuzzyPrep sb
  if ta.length + tb.length = 0 then 1
  else (2 * (matchesTotal ta tb) : ℚ) / ((ta.length + tb.length : ℕ) : ℚ)

/-- Token-set subset test, modelling `set(na.split()) <= set(nb.split())`. -/
def subsetTokens (xs ys : List (List Char)) : Bool :=
  xs.all (fun t => ys.contains t)

/-- Embedding of `_descriptions_match` (value_extractor.py, lines 207-233):
exact normalized equality (nonempty) gives `(True, 1.0)`; a token-set
inclusion either way gives `(True, 0.9)`; a fuzzy ratio `≥ 0.90` gives
`(True, ratio)`; the embedding-similarity branch is dead code (see module
docstring), so `emb = 0.0` and otherwise the result is
`(False, max ratio 0.0)`. -/
def descriptionsMatch (da db : String) : Bool × ℚ :=
  let na := normalizeText da
  let nb := normalizeText db
  if na ≠ "" ∧ na = nb then (true, 1)
  else
    let tokensA := pySplit na.toList
    let tokensB := pySplit nb.toList
    if subsetTokens tokensA tokensB ∨ subsetTokens tokensB tokensA then (true, 9 / 10)
    else
      let fz := fuzzyScore na nb
      if fz ≥ 9 / 10 then (true, fz)
      else
        let emb : ℚ := 0
        if emb ≥ 8 / 10 then (true, emb) else (false, max fz emb)

/-!
Fusion helpers and the two merge routines of the Reconciliation Engine.

Raw provider payloads reaching `_merge_headers` / `_merge_line_items` have
already been validated against `ExtractedDataWithConfidence`
(`extract_data_from_bill`, which validates `res1`/`res2` before calling
`_build_fused_payload`), so every field object carries a `value` key
(possibly null) and a `confidence` key (a float; the `.get(..., default)`
fallbacks for an absent key are therefore never exercised and have no
counterpart here).  A field is modelled by `ConfField`.
-/

/-- A provider-reported field: an optional value plus its confidence.  The
confidence is kept as `Option ℚ` to mirror the `None` handling inside
`_choose_value_and_conf` and `_both_conf_over_90`. -/
structure ConfField (α : Type) where
  value : Option α
  confidence : Option ℚ
deriving Repr, DecidableEq

/-- A merged field as produced by `set_field` inside `_merge_headers`: the
chosen value and the recalibrated (always present) confidence. -/
structure MergedField (α : Type) where
  value : Option α
  confidence : ℚ
deriving Repr, DecidableEq

/-- Embedding of `_round_half_away_from_zero` (value_extractor.py, lines
158-165): `floor(x + 0.5)` for `x ≥ 0`, `ceil(x - 0.5)` otherwise. -/
def roundHalfAwayFromZero (x : ℚ) : ℤ :=
  if x ≥ 0 then ⌊x + 1 / 2⌋ else ⌈x - 1 / 2⌉

/-- Option-level wrapper of `_round_half_away_from_zero` (its `None → None`
branch). -/
def roundHalfAwayOpt (x : Option ℚ) : Option ℤ :=
  x.map roundHalfAwayFromZero

/-- Embedding of `_choose_value_and_conf` (value_extractor.py, lines
168-180): missing confidences count as 0.0, confidences within `1e-9` of each
other are a tie resolved to the first (Gemini) provider
(`prefer_gemini_on_tie` is `True` at every call site), otherwise the value of
the strictly-higher-confidence provider is chosen. -/
def chooseValueAndConf {α : Type} (gv : Option α) (gc : Option ℚ)
    (ov : Option α) (oc : Option ℚ) : Option α × ℚ :=
  let gcq := gc.getD 0
  let ocq := oc.getD 0
  if |gcq - ocq| < 1 / 1000000000 then (gv, gcq)
  else if gcq > ocq then (gv, gcq) else (ov, ocq)

/-- Embedding of `_both_conf_over_90` (value_extractor.py, lines 183-190).
Despite its name and its docstring ("True if for each paired confidence both
sides are > 0.9"), the source gates at `0.7`: it returns `False` iff some
paired confidence is `None` or `< 0.7`.  Pairing uses `zip`, which truncates
to the shorter list exactly as Python `zip` does. -/
def bothConfOver90 (l1 l2 : List (Option ℚ)) : Bool :=
  (l1.zip l2).all fun p =>
    match p.1, p.2 with
    | some ca, some cb => decide (ca ≥ 7 / 10) && decide (cb ≥ 7 / 10)
    | _, _ => false

/-- Embedding of the per-key body of the first loop of `_merge_headers`
(value_extractor.py, lines 415-426), for the string-like header fields
`hospital_name`, `patient_name`, `bill_no`. -/
def mergeStringField (g o : ConfField String) : MergedField String :=
  if g.value = none ∧ o.value = none then ⟨none, 1 / 2⟩
  else
    let matched := (descriptionsMatch (g.value.getD "") (o.value.getD "")).1
    let chosen := (chooseValueAndConf g.value g.confidence o.value o.confidence).1
    ⟨chosen, if matched ∧ bothConfOver90 [g.confidence] [o.confidence] then 1 else 1 / 2⟩

/-- Embedding of the per-key body of the second loop of `_merge_headers`
(lines 429-440), for the date fields: equality is exact string identity of
the `YYYY-MM-DD` values, and `None` never matches. -/
def mergeDateField (g o : ConfField String) : MergedField String :=
  if g.value = none ∧ o.value = none then ⟨none, 1 / 2⟩
  else
    let matched := g.value = o.value ∧ g.value ≠ none
    let chosen := (chooseValueAndConf g.value g.confidence o.value o.confidence).1
    ⟨chosen, if matched ∧ bothConfOver90 [g.confidence] [o.confidence] then 1 else 1 / 2⟩

/-- Embedding of the `net_payable_amount` tail of `_merge_headers` (lines
443-451): integer-precision comparison after round-half-away-from-zero; a
non-numeric (here: absent) value rounds to `None` and never matches.  Note
the source has no both-null shortcut for this field; the general path yields
the same `(None, 0.5)` outcome. -/
def mergeNumField (g o : ConfField ℚ) : MergedField ℚ :=
  let gi := roundHalfAwayOpt g.value
  let oi := roundHalfAwayOpt o.value
  let matched := gi ≠ none ∧ oi ≠ none ∧ gi = oi
  let chosen := (chooseValueAndConf g.value g.confidence o.value o.confidence).1
  ⟨chosen, if matched ∧ bothConfOver90 [g.confidence] [o.confidence] then 1 else 1 / 2⟩

/-- The header portion of a provider payload (dates kept as their
`YYYY-MM-DD` strings, exactly what the JSON carries and what `gv == ov`
compares). -/
structure HeaderRecord where
  hospital_name : ConfField String
  patient_name : ConfField String
  bill_no : ConfField String
  bill_date : ConfField String
  admission_date : ConfField String
  discharge_date : ConfField String
  net_payable_amount : ConfField ℚ
deriving Repr, DecidableEq

/-- The merged header produced by `_merge_headers`. -/
structure MergedHeader where
  hospital_name : MergedField String
  patient_name : MergedField String
  bill_no : MergedField String
  bill_date : MergedField String
  admission_date : MergedField String
  discharge_date : MergedField String
  net_payable_amount : MergedField ℚ
deriving Repr, DecidableEq

/-- Embedding of `_merge_headers` (value_extractor.py, lines 398-453). -/
def mergeHeaders (g o : HeaderRecord) : MergedHeader where
  hospital_name := mergeStringField g.hospital_name o.hospital_name
  patient_name := mergeStringField g.patient_name o.patient_name
  bill_no := mergeStringField g.bill_no o.bill_no
  bill_date := mergeDateField g.bill_date o.bill_date
  admission_date := mergeDateField g.admission_date o.admission_date
  discharge_date := mergeDateField g.discharge_date o.discharge_date
  net_payable_amount := mergeNumField g.net_payable_amount o.net_payable_amount

/-- A provider line item: the four confidence-scored fields. -/
structure ConfItem where
  description : ConfField String
  quantity : ConfField ℚ
  unit_price : ConfField ℚ
  total_amount : ConfField ℚ
deriving Repr, DecidableEq

instance : Inhabited ConfItem :=
  ⟨⟨⟨none, none⟩, ⟨none, none⟩, ⟨none, none⟩, ⟨none, none⟩⟩⟩

/-- Embedding of `_force_item_confidence` (value_extractor.py, lines
456-467): keep the four values, force all four confidences. -/
def forceItemConfidence (it : ConfItem) (c : ℚ) : ConfItem where
  description := ⟨it.description.value, some c⟩
  quantity := ⟨it.quantity.value, some c⟩
  unit_price := ⟨it.unit_price.value, some c⟩
  total_amount := ⟨it.total_amount.value, some c⟩

/-- The candidate pairs of `_greedy_match_pairs` (value_extractor.py, lines
474-481): all index pairs whose descriptions match, generated in `gi`-major,
`oi`-minor order like the two nested loops. -/
def matchCandidates (gItems oItems : List ConfItem) : List (ℕ × ℕ × ℚ) :=
  gItems.enum.flatMap fun gp =>
    oItems.enum.filterMap fun op =>
      let r := descriptionsMatch (gp.2.description.value.getD "") (op.2.description.value.getD "")
      if r.1 then some (gp.1, op.1, r.2) else none

/-- Ordered insertion for the stable descending sort of candidates. -/
def insertCandDesc (c : ℕ × ℕ × ℚ) : List (ℕ × ℕ × ℚ) → List (ℕ × ℕ × ℚ)
  | [] => [c]
  | d :: ds => if d.2.2 ≥ c.2.2 then d :: insertCandDesc c ds else c :: d :: ds

/-- Stable insertion sort by descending score, matching
`candidates.sort(key=lambda x: x[2], reverse=True)` (Python list sort is
stable, and so is this insertion sort: an element is placed after every
earlier element of greater-or-equal score). -/
def sortCandDesc (cs : List (ℕ × ℕ × ℚ)) : List (ℕ × ℕ × ℚ) :=
  cs.foldl (fun acc c => insertCandDesc c acc) []

/-- Embedding of `_greedy_match_pairs` (value_extractor.py, lines 470-497):
sort the candidates by descending score, then greedily accept pairs of score
`≥ 0.85` whose indices are both unused. -/
def greedyMatchPairs (gItems oItems : List ConfItem) : List (ℕ × ℕ × ℚ) :=
  let sorted := sortCandDesc (matchCandidates gItems oItems)
  (sorted.foldl
    (fun (st : List ℕ × List ℕ × List (ℕ × ℕ × ℚ)) c =>
      if c.2.2 < 85 / 100 then st
      else if st.1.contains c.1 || st.2.1.contains c.2.1 then st
      else (c.1 :: st.1, c.2.1 :: st.2.1, st.2.2 ++ [c]))
    ([], [], [])).2.2

/-- Embedding of the per-pair body of `_merge_line_items` (value_extractor.py,
lines 520-580): if quantity, unit price and total amount do not all agree at
rounded-integer precision, emit both original items with forced 0.5
confidences; otherwise emit one merged item whose tier is 1.0 iff
`_both_conf_over_90` accepts all four confidence pairs, each value chosen by
`_choose_value_and_conf`. -/
def mergePair (g o : ConfItem) : List ConfItem :=
  let gq := roundHalfAwayOpt g.quantity.value
  let oq := roundHalfAwayOpt o.quantity.value
  let gu := roundHalfAwayOpt g.unit_price.value
  let ou := roundHalfAwayOpt o.unit_price.value
  let gt := roundHalfAwayOpt g.total_amount.value
  let ot := roundHalfAwayOpt o.total_amount.value
  if ¬ (gq = oq ∧ gu = ou ∧ gt = ot) then
    [forceItemConfidence g (1 / 2), forceItemConfidence o (1 / 2)]
  else
    let fc : ℚ :=
      if bothConfOver90
          [g.description.confidence, g.quantity.confidence,
           g.unit_price.confidence, g.total_amount.confidence]
          [o.description.confidence, o.quantity.confidence,
           o.unit_price.confidence, o.total_amount.confidence]
      then 1 else 1 / 2
    [{ description :=
         ⟨(chooseValueAndConf g.description.value g.description.confidence
             o.description.value o.description.confidence).1, some fc⟩
     , quantity :=
         ⟨(chooseValueAndConf g.quantity.value g.quantity.confidence
             o.quantity.value o.quantity.confidence).1, some fc⟩
     , unit_price :=
         ⟨(chooseValueAndConf g.unit_price.value g.unit_price.confidence
             o.unit_price.value o.unit_price.confidence).1, some fc⟩
     , total_amount :=
         ⟨(chooseValueAndConf g.total_amount.value g.total_amount.confidence
             o.total_amount.value o.total_amount.confidence).1, some fc⟩ }]

/-- Embedding of `_merge_line_items` (value_extractor.py, lines 500-592):
process the greedy pairs in order (indexing into the two lists as the source
does; the indices produced by `greedyMatchPairs` are always in range), then
append the unmatched items of either side with forced 0.5 confidences. -/
def mergeLineItems (gItems oItems : List ConfItem) : List ConfItem :=
  let pairs := greedyMatchPairs gItems oItems
  let pairedG := pairs.map (·.1)
  let pairedO := pairs.map (·.2.1)
  (pairs.flatMap fun p => mergePair (gItems.getD p.1 default) (oItems.getD p.2.1 default))
    ++ ((gItems.enum.filter fun gp => ¬ pairedG.contains gp.1).map
          fun gp => forceItemConfidence gp.2 (1 / 2))
    ++ ((oItems.enum.filter fun op => ¬ pairedO.contains op.1).map
          fun op => forceItemConfidence op.2 (1 / 2))

/-!
The adjudication orchestrator (`app/rules_engine.py`, active definition at
lines 250-450, together with its helpers in `app/rules_utils.py` and the
schemas in `app/pydantic_schemas.py`).

Two layers are embedded.

1. `adjudicate_claim` models the function as it actually executes: step 0
   constructs an `AdjudicatedClaim` (pydantic v2 `BaseModel`) passing the
   keyword set `adjudicateClaimInitKwargs` (rules_engine.py, lines 285-299).
   Pydantic ignores unknown keywords under the default `extra = "ignore"`
   configuration but raises a `ValidationError` for every required field
   that is not supplied; the embedding performs that required-field check
   against the schema of `AdjudicatedClaim` (pydantic_schemas.py, lines
   331-369) and only on success continues with the pipeline.

2. The stage functions (`initItems`, `step1MarkItems`, `step3FinalItems`,
   the aggregation of step 4, composed in `adjudicationPipeline`) model the
   data flow of steps 0-4 as written in the source.  The schema forces a
   split model of step 1: `AdjudicatedLineItem.status` is a pydantic
   `computed_field` property with no setter and no backing field
   (pydantic_schemas.py, lines 89-104), so every read of `item.status`
   below is the derived value, and the write `item.status = "Disallowed"`
   at rules_engine.py line 322 raises `AttributeError` on a real pydantic
   v2 model before the amount updates of lines 323-325 run.  `step1Run`
   embeds that execution faithfully: the loop raises at the first matched
   item and, when nothing matches, completes leaving every item unchanged.
   `step1MarkItems` embeds the marking that lines 323-325 describe, i.e.
   the stage as the surrounding data flow intends it; that flow is in any
   case unreachable, because step 0 has already raised (see
   `adjudicate_claim`).

Oracles: the Normalization service is a function from a description to the
category it resolves to (`none` when no confident match), the Rule-Match LLM
is a function from a description to an optional rule name (one call per
eligible item; the sub-limit names shown in its prompt are fixed for the
whole claim), and the Rule-Apply agent is a function from (item, rule spec,
sum insured) to the updated item.
-/

/-- Embedding of `LineItem` (pydantic_schemas.py, lines 14-22). -/
structure LineItem where
  description : String
  quantity : ℚ
  unit_price : ℚ
  total_amount : ℚ
deriving Repr, DecidableEq

/-- Embedding of `AdjudicatedLineItem` (pydantic_schemas.py, lines 71-104):
the stored fields only — `status` is a computed property, not a field. -/
structure AdjudicatedLineItem extends LineItem where
  allowed_amount : ℚ
  disallowed_amount : ℚ
  reason : Option String
deriving Repr, DecidableEq

/-- Embedding of the derived `status` property of `AdjudicatedLineItem`
(pydantic_schemas.py, lines 89-104). -/
def AdjudicatedLineItem.status (it : AdjudicatedLineItem) : String :=
  let total := it.allowed_amount + it.disallowed_amount
  if total = 0 then "Allowed"
  else if it.allowed_amount > 0 ∧ it.disallowed_amount > 0 then "Partially Allowed"
  else if it.allowed_amount > 0 ∧ it.disallowed_amount = 0 then "Allowed"
  else "Disallowed"

/-- Opaque stand-in for one sub-limit rule dictionary of `POLICY_RULEBOOK`
(app/data/master_data.py).  The orchestrator never inspects a rule spec; it
only forwards it to the Rule-Apply oracle. -/
structure RuleSpec where
  payload : String
deriving Repr, DecidableEq

/-- One policy of `POLICY_RULEBOOK`: the fields the orchestrator reads.
`sub_limits` is an association list (dict keys are unique and ordered);
a key may map to `none`, mirroring sub-limit names whose dict value is
Python `None` (such names are excluded from the Rule-Match prompt but still
satisfy `rule_name in sub_limits`). -/
structure Policy where
  sum_insured : ℚ
  co_payment_percentage : ℚ
  sub_limits : List (String × Option RuleSpec)
deriving Repr, DecidableEq

/-- The reason string written by the non-payable stage
(rules_engine.py, line 325). -/
def irdaiReason : String :=
  "Non-payable item as per IRDAI guidelines."

/-- Embedding of `identify_non_payable_items` (rules_utils.py, lines
238-248): the items whose description the Normalization Oracle resolves to
the reserved category `"Non-Payable Item"`.  A falsy (`None`) oracle result
never equals `some _`. -/
def identify_non_payable_items (items : List AdjudicatedLineItem)
    (normOracle : String → Option String) : List AdjudicatedLineItem :=
  items.filter fun it => normOracle it.description = some "Non-Payable Item"

/-- Step 0 of `adjudicate_claim` (rules_engine.py, lines 273-282): every
input line item becomes an adjudicated item that is fully allowed
(`allowed_amount = total_amount`, `disallowed_amount = 0`, no reason).  The
`status="Allowed"` keyword passed there is an ignored extra, since `status`
is a computed field. -/
def initItems (ls : List LineItem) : List AdjudicatedLineItem :=
  ls.map fun it =>
    { toLineItem := it, allowed_amount := it.total_amount, disallowed_amount := 0, reason := none }

/-- The intended effect of the step-1 loop body (rules_engine.py, lines
323-325): zero out every item whose description is in the non-payable list
and set the IRDAI reason.  The loop as executed never completes this
marking — its first statement for a matched item is the line-322 status
write, which raises on the setterless computed property; `step1Run` below
embeds that execution faithfully.  This intended-marking form is what the
remaining (step-0-unreachable) pipeline stages consume. -/
def step1MarkItems (items : List AdjudicatedLineItem) (nps : List String) :
    List AdjudicatedLineItem :=
  items.map fun it =>
    if nps.contains it.description then
      { it with allowed_amount := 0, disallowed_amount := it.total_amount,
                reason := some irdaiReason }
    else it

/-- The error raised by `item.status = "Disallowed"` (rules_engine.py, line
322): `status` is a pydantic v2 `computed_field` property with no setter,
so assigning to it raises. -/
def statusSetterError : String :=
  "AttributeError: property 'status' of 'AdjudicatedLineItem' object has no setter"

/-- Faithful embedding of the step-1 loop as executed (rules_engine.py,
lines 317-327): for a matched item the first statement run is the line-322
status write, which raises before the amounts of lines 323-325 are ever
touched, so the loop raises at the first item whose description is in the
non-payable list and otherwise completes leaving every item unchanged. -/
def step1Run : List AdjudicatedLineItem → List String →
    Except String (List AdjudicatedLineItem)
  | [], _ => .ok []
  | it :: rest, nps =>
    if nps.contains it.description then .error statusSetterError
    else
      match step1Run rest nps with
      | .ok tail => .ok (it :: tail)
      | .error e => .error e

/-- The `total_disallowed_IRDAI` accumulator of step 1: the loop adds
`item.allowed_amount` as read before the item is zeroed, i.e. the pre-update
(step-0) allowed amounts of the matched items. -/
def irdaiDisallowedTotal (items : List AdjudicatedLineItem) (nps : List String) : ℚ :=
  ((items.filter fun it => nps.contains it.description).map (·.allowed_amount)).sum

/-- The `np_hit_names` accumulator of step 1: descriptions of the matched
items, in item order. -/
def irdaiHitNames (items : List AdjudicatedLineItem) (nps : List String) : List String :=
  (items.filter fun it => nps.contains it.description).map (·.description)

/-- Lexicographic string order by code point (Python `<` on `str`). -/
def stringLe (a b : String) : Bool :=
  tokenLe a.toList b.toList

/-- Ordered insertion for `sortedUniqueNames`. -/
def insertName (s : String) : List String → List String
  | [] => [s]
  | t :: ts => if stringLe t s then t :: insertName s ts else s :: t :: ts

/-- Embedding of `sorted(set(names))` (rules_engine.py, line 331): the
deduplicated names in ascending order (unique for pairwise distinct
strings). -/
def sortedUniqueNames (ns : List String) : List String :=
  ns.eraseDups.foldl (fun acc s => insertName s acc) []

/-- The adjustments-log entries.  The source appends human-readable
f-strings; the embedding abstracts each entry to a constructor carrying
exactly the data interpolated into it (rules_engine.py, lines 330-335,
404-407, 424-428, 435-439). -/
inductive LogEntry where
  | irdaiNonPayable (names : List String) (total : ℚ)
  | policyDisallowed (total : ℚ)
  | coPayment (percentage amount : ℚ)
  | sumInsuredCap (sumInsured : ℚ)
deriving Repr, DecidableEq

/-- The conditional log append of step 1 (rules_engine.py, lines 330-335):
one entry with the sorted deduplicated hit names and the summed amount, iff
the summed amount is strictly positive. -/
def step1Log (items : List AdjudicatedLineItem) (nps : List String) : List LogEntry :=
  if irdaiDisallowedTotal items nps > 0 then
    [.irdaiNonPayable (sortedUniqueNames (irdaiHitNames items nps))
      (irdaiDisallowedTotal items nps)]
  else []

/-- The `items_to_process` selection of step 2 (rules_engine.py, lines
345-350): items whose (derived) status is not `"Disallowed"`. -/
def eligibleItems (items : List AdjudicatedLineItem) : List AdjudicatedLineItem :=
  items.filter fun it => it.status ≠ "Disallowed"

/-- The Rule-Match fan-out of step 2: one `get_rule_match_with_llm` call per
element of `items_to_process`, carrying the item description (the sub-limit
names of the prompt are fixed per claim). -/
def matchCalls (items : List AdjudicatedLineItem) : List String :=
  (eligibleItems items).map (·.description)

/-- The sub-limit name set of the policy (`sub_limits` dict keys). -/
def subLimitKeys (p : Policy) : List String :=
  p.sub_limits.map (·.1)

/-- The guard `if rule_name and rule_name in sub_limits` (rules_engine.py,
line 367): a truthy (nonempty) rule name that is a key of `sub_limits`. -/
def ruleApplies (p : Policy) (rn : Option String) : Bool :=
  match rn with
  | some r => decide (r ≠ "") && (subLimitKeys p).contains r
  | none => false

/-- Dict lookup `sub_limits[rule_name]` (only evaluated under
`ruleApplies`, so the key is present; the stored value may itself be a
Python `None`). -/
def ruleSpecFor (p : Policy) (r : String) : Option RuleSpec :=
  match p.sub_limits.find? fun q => q.1 = r with
  | some q => q.2
  | none => none

/-- Embedding of `apply_policy_rule_with_llm_tools` (rules_utils.py, lines
366-391): items whose derived status is `"Disallowed"` are returned
unchanged; otherwise the Rule-Apply oracle (the agent plus the structured
formatter) produces the updated item. -/
def apply_policy_rule_with_llm_tools
    (applyOracle : AdjudicatedLineItem → Option RuleSpec → ℚ → AdjudicatedLineItem)
    (it : AdjudicatedLineItem) (spec : Option RuleSpec) (si : ℚ) : AdjudicatedLineItem :=
  if it.status = "Disallowed" then it else applyOracle it spec si

/-- Step 3 of `adjudicate_claim` (rules_engine.py, lines 355-396): the loop
over `items_to_process` appends items without an applicable rule to
`final_adjudicated_items` as it goes and queues the rest; the queued items,
updated by the Rule-Apply oracle, are appended next, and the items of the
step-1 list whose status is `"Disallowed"` are appended last.  (The
`i < len(matched_rule_names)` guard of line 365 is dead: `asyncio.gather`
returns one result per task.) -/
def step3FinalItems (p : Policy)
    (ruleMatchOracle : String → Option String)
    (applyOracle : AdjudicatedLineItem → Option RuleSpec → ℚ → AdjudicatedLineItem)
    (s1 : List AdjudicatedLineItem) : List AdjudicatedLineItem :=
  let toProcess := eligibleItems s1
  let noRule := toProcess.filter fun it => ¬ ruleApplies p (ruleMatchOracle it.description)
  let updated :=
    (toProcess.filter fun it => ruleApplies p (ruleMatchOracle it.description)).map fun it =>
      apply_policy_rule_with_llm_tools applyOracle it
        (match ruleMatchOracle it.description with
         | some r => ruleSpecFor p r
         | none => none)
        p.sum_insured
  let disallowed := s1.filter fun it => it.status = "Disallowed"
  noRule ++ updated ++ disallowed

/-- The `total_disallowed_policy` accumulator (rules_engine.py, lines
399-402): summed `disallowed_amount` over the final items whose derived
status is not `"Disallowed"` and whose reason is not the IRDAI reason
(`None` compares unequal to the string, as in Python). -/
def policyDisallowedTotal (finalItems : List AdjudicatedLineItem) : ℚ :=
  ((finalItems.filter fun it =>
      it.status ≠ "Disallowed" ∧ it.reason ≠ some irdaiReason).map
    (·.disallowed_amount)).sum

/-- The conditional log append after step 3 (rules_engine.py, lines
404-407). -/
def step3Log (finalItems : List AdjudicatedLineItem) : List LogEntry :=
  if policyDisallowedTotal finalItems > 0 then
    [.policyDisallowed (policyDisallowedTotal finalItems)]
  else []

/-- Step 4a (rules_engine.py, lines 413-415): the recomputed total allowed
amount over the final item list. -/
def finalTotalAllowed (finalItems : List AdjudicatedLineItem) : ℚ :=
  (finalItems.map (·.allowed_amount)).sum

/-- Step 4b (rules_engine.py, lines 421-430): the co-payment amount, nonzero
only when `co_payment_percentage > 0` and the allowed total is positive. -/
def coPaymentAmount (p : Policy) (t : ℚ) : ℚ :=
  if p.co_payment_percentage > 0 ∧ t > 0 then t * p.co_payment_percentage / 100 else 0

/-- Step 4 final payable (rules_engine.py, line 433): the post-co-payment
total capped at the sum insured. -/
def finalPayable (p : Policy) (t : ℚ) : ℚ :=
  min (t - coPaymentAmount p t) p.sum_insured

/-- The log entries appended by step 4: the co-payment entry (iff a
co-payment was applied) followed by the cap entry (iff
`final_payable < amount_after_copay`). -/
def step4Log (p : Policy) (t : ℚ) : List LogEntry :=
  (if p.co_payment_percentage > 0 ∧ t > 0 then
    [.coPayment p.co_payment_percentage (coPaymentAmount p t)]
  else [])
  ++ (if finalPayable p t < t - coPaymentAmount p t then
        [.sumInsuredCap p.sum_insured]
      else [])

/-- Embedding of `ExtractedData` (pydantic_schemas.py, lines 34-57); dates
kept as strings, which the orchestrator never inspects. -/
structure ExtractedData where
  hospital_name : String
  patient_name : String
  bill_no : Option String
  bill_date : String
  admission_date : String
  discharge_date : Option String
  line_items : List LineItem
  net_payable_amount : ℚ
deriving Repr, DecidableEq

/-- The result of the adjudication data flow: the final item list, the
accumulated adjustments log in stage order, the claimed total, and the final
payable amount (the value the source writes into the claim object at line
441). -/
structure PipelineResult where
  finalItems : List AdjudicatedLineItem
  adjustments_log : List LogEntry
  total_claimed : ℚ
  payable : ℚ
deriving Repr, DecidableEq

/-- The composed data flow of steps 0-4 of `adjudicate_claim`
(rules_engine.py, lines 267-441). -/
def adjudicationPipeline
    (normOracle : String → Option String)
    (ruleMatchOracle : String → Option String)
    (applyOracle : AdjudicatedLineItem → Option RuleSpec → ℚ → AdjudicatedLineItem)
    (extracted : ExtractedData) (p : Policy) : PipelineResult :=
  let s0 := initItems extracted.line_items
  let nps := (identify_non_payable_items s0 normOracle).map (·.description)
  let s1 := step1MarkItems s0 nps
  let finalItems := step3FinalItems p ruleMatchOracle applyOracle s1
  let t := finalTotalAllowed finalItems
  { finalItems := finalItems
  , adjustments_log := step1Log s0 nps ++ step3Log finalItems ++ step4Log p t
  , total_claimed := extracted.net_payable_amount
  , payable := finalPayable p t }

/-- The required fields of the `AdjudicatedClaim` pydantic schema
(pydantic_schemas.py, lines 331-369): every field declared with
`Field(...)`; `bill_no`, `discharge_date`, `sanity_check_result` and
`performance_report` have defaults and are optional. -/
def adjudicatedClaimRequiredFields : List String :=
  ["hospital_name", "patient_name", "bill_date", "admission_date",
   "adjudicated_line_items", "total_claimed_amount", "total_allowed_amount",
   "adjustments_log"]

/-- All declared fields of the `AdjudicatedClaim` schema, in declaration
order. -/
def adjudicatedClaimAllFields : List String :=
  ["hospital_name", "patient_name", "bill_no", "bill_date", "admission_date",
   "discharge_date", "adjudicated_line_items", "total_claimed_amount",
   "total_allowed_amount", "adjustments_log", "sanity_check_result",
   "performance_report"]

/-- The keyword names passed to the `AdjudicatedClaim` constructor by step 0
of `adjudicate_claim` (rules_engine.py, lines 285-299). -/
def adjudicateClaimInitKwargs : List String :=
  ["hospital_name", "patient_name", "bill_no", "bill_date", "admission_date",
   "discharge_date", "adjudicated_line_items", "total_claimed_amount",
   "total_amount_reimbursed", "adjustments_log"]

/-- Embedding of `adjudicate_claim` (rules_engine.py, lines 250-450) as it
executes: pydantic v2 validates the step-0 constructor call, raising a
`ValidationError` listing every required schema field that was not supplied
(unknown keywords are silently ignored under the default
`extra = "ignore"`); only if no required field is missing does execution
continue with steps 1-4. -/
def adjudicate_claim
    (normOracle : String → Option String)
    (ruleMatchOracle : String → Option String)
    (applyOracle : AdjudicatedLineItem → Option RuleSpec → ℚ → AdjudicatedLineItem)
    (extracted : ExtractedData) (p : Policy) : Except (List String) PipelineResult :=
  let missing := adjudicatedClaimRequiredFields.filter
    fun f => ¬ adjudicateClaimInitKwargs.contains f
  if missing.isEmpty then
    .ok (adjudicationPipeline normOracle ruleMatchOracle applyOracle extracted p)
  else
    .error missing

/-!
Specification-side definitions.

The definitions below are written from the wording of the (amended) claims,
not from the source, and exist to be compared with the source embeddings
above: `specMergeLineItems` restates the line-item merge as the claim
describes it, and `amountInvariant` is the per-item accounting equation of
the spec (§8). -/

/-- The per-item accounting invariant of the spec:
`allowed_amount + disallowed_amount == total_amount` within 1e-6. -/
def amountInvariant (it : AdjudicatedLineItem) : Prop :=
  |it.allowed_amount + it.disallowed_amount - it.total_amount| ≤ 1 / 1000000

/-- Spec side: a reported confidence clears the hardcoded agreement gate
(present and at least 0.7). -/
def specConfOK (c : Option ℚ) : Prop :=
  ∃ q, c = some q ∧ 7 / 10 ≤ q

instance (c : Option ℚ) : Decidable (specConfOK c) := by
  unfold specConfOK
  exact inferInstance

/-- Spec side: all four fields on both sides clear the agreement gate. -/
def specAllFourOK (g o : ConfItem) : Prop :=
  specConfOK g.description.confidence ∧ specConfOK o.description.confidence ∧
  specConfOK g.quantity.confidence ∧ specConfOK o.quantity.confidence ∧
  specConfOK g.unit_price.confidence ∧ specConfOK o.unit_price.confidence ∧
  specConfOK g.total_amount.confidence ∧ specConfOK o.total_amount.confidence

instance (g o : ConfItem) : Decidable (specAllFourOK g o) := by
  unfold specAllFourOK
  exact inferInstance

/-- Spec side: the value is taken from the higher-confidence side, where
confidences within 1e-9 of each other count as a tie resolved to the first
(Gemini) side and a missing confidence counts as 0. -/
def specPickValue {α : Type} (gv : Option α) (gc : Option ℚ) (ov : Option α)
    (oc : Option ℚ) : Option α :=
  if |gc.getD 0 - oc.getD 0| < 1 / 1000000000 then gv
  else if gc.getD 0 < oc.getD 0 then ov else gv

/-- Spec side: quantity, unit price and total amount agree under
round-half-away-from-zero integer equality. -/
def specNumbersAgree (g o : ConfItem) : Prop :=
  roundHalfAwayOpt g.quantity.value = roundHalfAwayOpt o.quantity.value ∧
  roundHalfAwayOpt g.unit_price.value = roundHalfAwayOpt o.unit_price.value ∧
  roundHalfAwayOpt g.total_amount.value = roundHalfAwayOpt o.total_amount.value

instance (g o : ConfItem) : Decidable (specNumbersAgree g o) := by
  unfold specNumbersAgree
  exact inferInstance

/-- Spec side: the single merged item emitted for an agreeing pair. -/
def specMergedItem (g o : ConfItem) : ConfItem :=
  let fc : ℚ := if specAllFourOK g o then 1 else 1 / 2
  ⟨⟨specPickValue g.description.value g.description.confidence o.description.value
      o.description.confidence, some fc⟩,
   ⟨specPickValue g.quantity.value g.quantity.confidence o.quantity.value
      o.quantity.confidence, some fc⟩,
   ⟨specPickValue g.unit_price.value g.unit_price.confidence o.unit_price.value
      o.unit_price.confidence, some fc⟩,
   ⟨specPickValue g.total_amount.value g.total_amount.confidence o.total_amount.value
      o.total_amount.confidence, some fc⟩⟩

/-- Spec side: an accepted pair yields one merged item when the three numbers
agree, and both originals (confidences forced to 0.5) otherwise. -/
def specProcessPair (g o : ConfItem) : List ConfItem :=
  if specNumbersAgree g o then [specMergedItem g o]
  else [forceItemConfidence g (1 / 2), forceItemConfidence o (1 / 2)]

/-- Spec side: greedy selection over the descending-score candidate list,
accepting a candidate iff its score is at least 0.85 and neither index was
used before. -/
def specGreedySelect : List (ℕ × ℕ × ℚ) → List ℕ → List ℕ → List (ℕ × ℕ × ℚ)
  | [], _, _ => []
  | c :: cs, ug, uo =>
    if 85 / 100 ≤ c.2.2 ∧ c.1 ∉ ug ∧ c.2.1 ∉ uo then
      c :: specGreedySelect cs (c.1 :: ug) (c.2.1 :: uo)
    else specGreedySelect cs ug uo

/-- Spec side: the accepted pairs of the line-item merge. -/
def specPairs (gItems oItems : List ConfItem) : List (ℕ × ℕ × ℚ) :=
  specGreedySelect (sortCandDesc (matchCandidates gItems oItems)) [] []

/-- Spec side: the full line-item merge as described by the (amended) claim:
process each accepted pair, then pass every unclaimed item of either side
through with all four confidences forced to 0.5. -/
def specMergeLineItems (gItems oItems : List ConfItem) : List ConfItem :=
  (specPairs gItems oItems).flatMap
    (fun pr => specProcessPair (gItems.getD pr.1 default) (oItems.getD pr.2.1 default))
  ++ ((gItems.enum.filter fun gp =>
        decide (∀ pr ∈ specPairs gItems oItems, pr.1 ≠ gp.1)).map
      fun gp => forceItemConfidence gp.2 (1 / 2))
  ++ ((oItems.enum.filter fun op =>
        decide (∀ pr ∈ specPairs gItems oItems, pr.2.1 ≠ op.1)).map
      fun op => forceItemConfidence op.2 (1 / 2))

/-!
Concrete inputs used by the evaluation theorems, counterexamples and
witnesses below. -/

/-- A two-item claim for the C1 evaluation: one room-rent item of 10000 and
one IRDAI non-payable item of 50. -/
def c1Extracted : ExtractedData where
  hospital_name := "City Hospital"
  patient_name := "A Patel"
  bill_no := some "B1"
  bill_date := "2025-08-10"
  admission_date := "2025-08-01"
  discharge_date := none
  line_items := [⟨"Room Rent", 2, 5000, 10000⟩, ⟨"Comb", 1, 50, 50⟩]
  net_payable_amount := 10050

/-- A policy with 10% co-payment and a sum insured small enough to cap the
C1 evaluation. -/
def c1Policy : Policy where
  sum_insured := 5000
  co_payment_percentage := 10
  sub_limits := [("Room Charges", some ⟨"room"⟩)]

/-- Normalization oracle for the C1 evaluation: only `"Comb"` is
non-payable. -/
def c1Norm (d : String) : Option String :=
  if d = "Comb" then some "Non-Payable Item" else none

/-- Rule-match oracle for the C1 evaluation: no rule ever matches. -/
def c1Match (_ : String) : Option String := none

/-- Rule-apply oracle for the C1 evaluation: identity. -/
def c1Apply (it : AdjudicatedLineItem) (_ : Option RuleSpec) (_ : ℚ) : AdjudicatedLineItem :=
  it

/-- The C1 room-rent item after steps 0-1 (untouched). -/
def c1ItemA : AdjudicatedLineItem := ⟨⟨"Room Rent", 2, 5000, 10000⟩, 10000, 0, none⟩

/-- The C1 comb item after step 1 (zeroed, IRDAI reason). -/
def c1ItemB : AdjudicatedLineItem := ⟨⟨"Comb", 1, 50, 50⟩, 0, 50, some irdaiReason⟩

/-- Header record for the C4 evaluation: both providers report `bill_no`
`"X123"` with confidence 0.8, everything else absent. -/
def c4Gemini : HeaderRecord :=
  ⟨⟨none, none⟩, ⟨none, none⟩, ⟨some "X123", some (4 / 5)⟩,
   ⟨none, none⟩, ⟨none, none⟩, ⟨none, none⟩, ⟨none, none⟩⟩

/-- Second provider payload for the C4 evaluation (identical report). -/
def c4Gpt : HeaderRecord :=
  ⟨⟨none, none⟩, ⟨none, none⟩, ⟨some "X123", some (4 / 5)⟩,
   ⟨none, none⟩, ⟨none, none⟩, ⟨none, none⟩, ⟨none, none⟩⟩

/-- Line item for the C5 counterexample: every field confidence is 0.8. -/
def c5Gemini : ConfItem :=
  ⟨⟨some "CBC Test", some (4 / 5)⟩, ⟨some 1, some (4 / 5)⟩,
   ⟨some 100, some (4 / 5)⟩, ⟨some 100, some (4 / 5)⟩⟩

/-- Second provider item for the C5 counterexample (identical report). -/
def c5Gpt : ConfItem :=
  ⟨⟨some "CBC Test", some (4 / 5)⟩, ⟨some 1, some (4 / 5)⟩,
   ⟨some 100, some (4 / 5)⟩, ⟨some 100, some (4 / 5)⟩⟩

/-- Normalization oracle for the C7 failing input: only `"Comb"` is
classified non-payable. -/
def c7Norm (d : String) : Option String :=
  if d = "Comb" then some "Non-Payable Item" else none

/-- The C7 failing input: one 50-rupee comb, which the oracle classifies
non-payable. -/
def c7Items : List LineItem := [⟨"Comb", 1, 50, 50⟩]

/-- Input items for the C8 counterexample: one 100-rupee surgery item. -/
def c8Items : List LineItem := [⟨"Surgery", 1, 100, 100⟩]

/-- Normalization oracle for the C8 counterexample: nothing is
non-payable. -/
def c8Norm (_ : String) : Option String := none

/-- Rule-match oracle for the C8 counterexample: always matches rule
`"R"`. -/
def c8Match (_ : String) : Option String := some "R"

/-- Policy for the C8 counterexample: no co-payment, one sub-limit rule. -/
def c8Policy : Policy := ⟨100000, 0, [("R", some ⟨"cap"⟩)]⟩

/-- Rule-apply oracle for the C8 counterexample: disallows the item in
full. -/
def c8Apply (it : AdjudicatedLineItem) (_ : Option RuleSpec) (_ : ℚ) : AdjudicatedLineItem :=
  ⟨it.toLineItem, 0, it.total_amount, some "Capped by sub-limit"⟩

/-- Extracted data wrapping `c8Items`. -/
def c8Extracted : ExtractedData :=
  ⟨"h", "p", none, "2025-01-01", "2025-01-01", none, c8Items, 100⟩

end Mediclaim
namespace Mediclaim

/-!
Supporting lemmas. These are shared infrastructure for the claim theorems
below and never mention a claim theorem. -/

lemma initItems_invariant (ls : List LineItem) :
    ∀ it ∈ initItems ls, amountInvariant it := by
  intro it hit
  rw [initItems] at hit
  obtain ⟨x, _, rfl⟩ := List.mem_map.mp hit
  simp [amountInvariant]

lemma step1MarkItems_invariant (items : List AdjudicatedLineItem) (nps : List String)
    (h : ∀ it ∈ items, amountInvariant it) :
    ∀ it ∈ step1MarkItems items nps, amountInvariant it := by
  intro it hit
  rw [step1MarkItems] at hit
  obtain ⟨x, hx, rfl⟩ := List.mem_map.mp hit
  by_cases hc : nps.contains x.description = true
  · simp only [hc, if_pos]
    simp [amountInvariant]
  · rw [if_neg hc]
    exact h x hx

lemma step3FinalItems_invariant (p : Policy) (ruleO : String → Option String)
    (applyO : AdjudicatedLineItem → Option RuleSpec → ℚ → AdjudicatedLineItem)
    (s1 : List AdjudicatedLineItem)
    (hOracle : ∀ it spec si, amountInvariant (applyO it spec si))
    (h : ∀ it ∈ s1, amountInvariant it) :
    ∀ it ∈ step3FinalItems p ruleO applyO s1, amountInvariant it := by
  intro it hit
  rw [step3FinalItems] at hit
  rcases List.mem_append.mp hit with hit' | hdis
  · rcases List.mem_append.mp hit' with hno | hup
    · exact h it (List.mem_filter.mp (List.mem_filter.mp hno).1).1
    · obtain ⟨x, hx, rfl⟩ := List.mem_map.mp hup
      rw [apply_policy_rule_with_llm_tools]
      split_ifs
      · exact h x (List.mem_filter.mp (List.mem_filter.mp hx).1).1
      · exact hOracle x _ _
  · exact h it (List.mem_filter.mp hdis).1

lemma descriptionsMatch_of_empty (a b : String) (h : normalizeText a = "") :
    descriptionsMatch a b = (true, 9 / 10) := by
  rw [descriptionsMatch, h]
  have hcond : ¬ (("" : String) ≠ "" ∧ ("" : String) = normalizeText b) := by simp
  rw [if_neg hcond]
  rw [if_pos (Or.inl (show subsetTokens (pySplit ("" : String).toList)
    (pySplit (normalizeText b).toList) = true from rfl))]

lemma descriptionsMatch_of_empty_right (a b : String) (h : normalizeText b = "") :
    descriptionsMatch a b = (true, 9 / 10) := by
  rw [descriptionsMatch, h]
  rw [if_neg (show ¬ (normalizeText a ≠ "" ∧ normalizeText a = "") from
    fun hc => hc.1 hc.2)]
  rw [if_pos (Or.inr (show subsetTokens (pySplit ("" : String).toList)
    (pySplit (normalizeText a).toList) = true from rfl))]

lemma matchCandidates_single_empty (g o : ConfItem)
    (h : normalizeText (g.description.value.getD "") = "") :
    matchCandidates [g] [o] = [(0, 0, 9 / 10)] := by
  have hd := descriptionsMatch_of_empty _ (o.description.value.getD "") h
  rw [matchCandidates]
  simp [List.enum, hd]

lemma step1Run_spec (nps : List String) :
    ∀ items : List AdjudicatedLineItem,
      (items.any (fun it => nps.contains it.description) = true ∧
        step1Run items nps = .error statusSetterError) ∨
      (items.any (fun it => nps.contains it.description) = false ∧
        step1Run items nps = .ok items) := by
  intro items
  induction items with
  | nil => exact Or.inr ⟨rfl, rfl⟩
  | cons it rest ih =>
    by_cases hc : nps.contains it.description = true
    · refine Or.inl ⟨?_, ?_⟩
      · rw [List.any_cons, hc, Bool.true_or]
      · simp only [step1Run]
        rw [if_pos hc]
    · have hcf : nps.contains it.description = false := Bool.eq_false_iff.mpr hc
      rcases ih with ⟨ha, he⟩ | ⟨ha, ho⟩
      · refine Or.inl ⟨?_, ?_⟩
        · rw [List.any_cons, hcf, ha, Bool.false_or]
        · simp only [step1Run]
          rw [if_neg hc, he]
      · refine Or.inr ⟨?_, ?_⟩
        · rw [List.any_cons, hcf, ha, Bool.false_or]
        · simp only [step1Run]
          rw [if_neg hc, ho]

lemma status_zeroed (it : AdjudicatedLineItem) (h0 : it.allowed_amount = 0)
    (hd : it.disallowed_amount = it.total_amount) :
    it.status = "Disallowed" ↔ it.total_amount ≠ 0 := by
  rw [AdjudicatedLineItem.status, h0, hd]
  by_cases ht : it.total_amount = 0
  · rw [if_pos (by rw [ht]; ring)]
    simp [ht]
  · rw [if_neg (by rw [zero_add]; exact ht)]
    rw [if_neg (by simp), if_neg (by simp [ht])]
    simp [ht]

lemma sum_map_filter {α : Type} (p : α → Bool) (f : α → ℚ) (l : List α) :
    ((l.filter p).map f).sum = (l.map fun a => if p a then f a else 0).sum := by
  induction l with
  | nil => rfl
  | cons a t ih =>
    cases hp : p a <;> simp [List.filter_cons, hp, ih]

lemma eligible_allowed_eq_total (ls : List LineItem) (normO : String → Option String) :
    ∀ it ∈ eligibleItems (step1MarkItems (initItems ls)
        ((identify_non_payable_items (initItems ls) normO).map (·.description))),
      it.allowed_amount = it.total_amount := by
  intro it hit
  obtain ⟨hmem, hst⟩ := List.mem_filter.mp hit
  rw [step1MarkItems] at hmem
  obtain ⟨x, hx, rfl⟩ := List.mem_map.mp hmem
  rw [initItems] at hx
  obtain ⟨l, _, rfl⟩ := List.mem_map.mp hx
  by_cases hc : ((identify_non_payable_items (initItems ls) normO).map
      (·.description)).contains
      ({ toLineItem := l, allowed_amount := l.total_amount, disallowed_amount := 0,
         reason := none } : AdjudicatedLineItem).description = true
  · rw [if_pos hc] at hst ⊢
    have hz := status_zeroed
      ({ toLineItem := l, allowed_amount := 0, disallowed_amount := l.total_amount,
         reason := some irdaiReason } : AdjudicatedLineItem) rfl rfl
    by_contra hne
    have ht0 : l.total_amount ≠ 0 := fun h0 => hne h0.symm
    exact absurd (hz.mpr ht0) (by simp only [decide_not, Bool.not_eq_true',
      decide_eq_false_iff_not] at hst; exact hst)
  · rw [if_neg hc] at hst ⊢

lemma greedy_foldl_eq_specGreedySelect (cs : List (ℕ × ℕ × ℚ)) :
    ∀ (ug uo : List ℕ) (acc : List (ℕ × ℕ × ℚ)),
      ((cs.foldl
        (fun (st : List ℕ × List ℕ × List (ℕ × ℕ × ℚ)) c =>
          if c.2.2 < 85 / 100 then st
          else if st.1.contains c.1 || st.2.1.contains c.2.1 then st
          else (c.1 :: st.1, c.2.1 :: st.2.1, st.2.2 ++ [c]))
        (ug, uo, acc)).2.2) = acc ++ specGreedySelect cs ug uo := by
  induction cs with
  | nil => intro ug uo acc; simp [specGreedySelect]
  | cons c cs ih =>
    intro ug uo acc
    rw [List.foldl_cons, specGreedySelect]
    by_cases h85 : c.2.2 < 85 / 100
    · rw [if_pos h85, if_neg (by rw [not_and_or, not_le]; exact Or.inl h85), ih]
    · rw [if_neg h85]
      by_cases hg : c.1 ∈ ug
      · have hb : (ug.contains c.1 || uo.contains c.2.1) = true := by
          have h1 : ug.contains c.1 = true := List.elem_iff.mpr hg
          rw [h1, Bool.true_or]
        rw [if_pos hb, if_neg (by rintro ⟨-, hng, -⟩; exact hng hg), ih]
      · by_cases ho : c.2.1 ∈ uo
        · have hb : (ug.contains c.1 || uo.contains c.2.1) = true := by
            have h2 : uo.contains c.2.1 = true := List.elem_iff.mpr ho
            rw [h2, Bool.or_true]
          rw [if_pos hb, if_neg (by rintro ⟨-, -, hno⟩; exact hno ho), ih]
        · have hb : (ug.contains c.1 || uo.contains c.2.1) = false := by
            have h1 : ug.contains c.1 = false := by simpa using hg
            have h2 : uo.contains c.2.1 = false := by simpa using ho
            rw [h1, h2, Bool.or_false]
          rw [if_neg (show ¬ ((ug.contains c.1 || uo.contains c.2.1) = true) by
              rw [hb]; exact Bool.false_ne_true),
            if_pos (show (85 : ℚ) / 100 ≤ c.2.2 ∧ c.1 ∉ ug ∧ c.2.1 ∉ uo from
              ⟨not_lt.mp h85, hg, ho⟩), ih]
          simp

lemma greedyMatchPairs_eq_specPairs (gItems oItems : List ConfItem) :
    greedyMatchPairs gItems oItems = specPairs gItems oItems := by
  rw [greedyMatchPairs, specPairs]
  rw [greedy_foldl_eq_specGreedySelect]
  rfl

lemma confGate_iff (x y : Option ℚ) :
    (match x, y with
     | some ca, some cb => decide (ca ≥ 7 / 10) && decide (cb ≥ 7 / 10)
     | _, _ => false) = true ↔ specConfOK x ∧ specConfOK y := by
  cases x <;> cases y <;> simp [specConfOK]

lemma bothConfOver90_four_iff (a b c d e f g h : Option ℚ) :
    bothConfOver90 [a, b, c, d] [e, f, g, h] = true ↔
      (specConfOK a ∧ specConfOK e) ∧ (specConfOK b ∧ specConfOK f) ∧
      (specConfOK c ∧ specConfOK g) ∧ (specConfOK d ∧ specConfOK h) := by
  rw [bothConfOver90]
  simp only [List.zip_cons_cons, List.zip_nil_right, List.all_cons, List.all_nil,
    Bool.and_true, Bool.and_eq_true]
  rw [confGate_iff, confGate_iff, confGate_iff, confGate_iff]

lemma chooseValueAndConf_fst {α : Type} (gv : Option α) (gc : Option ℚ)
    (ov : Option α) (oc : Option ℚ) :
    (chooseValueAndConf gv gc ov oc).1 = specPickValue gv gc ov oc := by
  rw [chooseValueAndConf, specPickValue]
  by_cases ht : |gc.getD 0 - oc.getD 0| < 1 / 1000000000
  · rw [if_pos ht, if_pos ht]
  · rw [if_neg ht, if_neg ht]
    by_cases hlt : gc.getD 0 < oc.getD 0
    · rw [if_neg (show ¬ (gc.getD 0 > oc.getD 0) from not_lt.mpr hlt.le), if_pos hlt]
    · have hne : gc.getD 0 ≠ oc.getD 0 := by
        intro he
        exact ht (by rw [he, sub_self, abs_zero]; norm_num)
      have hgt : oc.getD 0 < gc.getD 0 :=
        (not_lt.mp hlt).lt_of_ne fun he => hne he.symm
      rw [if_pos (show gc.getD 0 > oc.getD 0 from hgt), if_neg hlt]

lemma mergePair_eq_specProcessPair (g o : ConfItem) :
    mergePair g o = specProcessPair g o := by
  have hiff : bothConfOver90
      [g.description.confidence, g.quantity.confidence,
       g.unit_price.confidence, g.total_amount.confidence]
      [o.description.confidence, o.quantity.confidence,
       o.unit_price.confidence, o.total_amount.confidence] = true ↔
      specAllFourOK g o := by
    rw [bothConfOver90_four_iff, specAllFourOK]
    tauto
  rw [mergePair, specProcessPair]
  by_cases hn : specNumbersAgree g o
  · obtain ⟨h1, h2, h3⟩ := hn
    rw [if_neg (show ¬ ¬ (roundHalfAwayOpt g.quantity.value = roundHalfAwayOpt o.quantity.value ∧
        roundHalfAwayOpt g.unit_price.value = roundHalfAwayOpt o.unit_price.value ∧
        roundHalfAwayOpt g.total_amount.value = roundHalfAwayOpt o.total_amount.value) from
      not_not_intro ⟨h1, h2, h3⟩)]
    rw [if_pos (show specNumbersAgree g o from ⟨h1, h2, h3⟩)]
    rw [specMergedItem]
    simp only [chooseValueAndConf_fst]
    rw [if_congr hiff rfl rfl]
  · rw [if_pos (show ¬ (roundHalfAwayOpt g.quantity.value = roundHalfAwayOpt o.quantity.value ∧
        roundHalfAwayOpt g.unit_price.value = roundHalfAwayOpt o.unit_price.value ∧
        roundHalfAwayOpt g.total_amount.value = roundHalfAwayOpt o.total_amount.value) from
      fun hc => hn hc)]
    rw [if_neg hn]

lemma mergeLineItems_eq_specMergeLineItems (gItems oItems : List ConfItem) :
    mergeLineItems gItems oItems = specMergeLineItems gItems oItems := by
  rw [mergeLineItems, specMergeLineItems, greedyMatchPairs_eq_specPairs]
  simp only [mergePair_eq_specProcessPair]
  congr 1
  congr 1
  · refine congrArg _ ?_
    apply List.filter_congr
    intro gp _
    rw [decide_eq_decide]
    constructor
    · intro hnc pr hpr heq
      exact hnc (List.elem_iff.mpr (List.mem_map.mpr ⟨pr, hpr, heq⟩))
    · intro hall hc
      obtain ⟨pr, hpr, heq⟩ := List.mem_map.mp (List.elem_iff.mp hc)
      exact hall pr hpr heq
  · refine congrArg _ ?_
    apply List.filter_congr
    intro op _
    rw [decide_eq_decide]
    constructor
    · intro hnc pr hpr heq
      exact hnc (List.elem_iff.mpr (List.mem_map.mpr ⟨pr, hpr, heq⟩))
    · intro hall hc
      obtain ⟨pr, hpr, heq⟩ := List.mem_map.mp (List.elem_iff.mp hc)
      exact hall pr hpr heq

/-!
Claim theorems. -/

/-- Claim C1 (code bug): the step-4 aggregation arithmetic behaves as the
claim describes on a concrete two-item claim — the payable amount is
`min(total allowed − co-payment, sum insured) = min(10000 − 1000, 5000) = 5000`,
is at most the sum insured, and the co-payment and cap log entries are
appended — but `adjudicate_claim` itself never returns an
`AdjudicatedClaim`: constructing the initial result object fails validation
(the required `total_allowed_amount` field is never supplied), so the
claimed `AdjudicatedClaim.total_allowed_amount` is never produced for any
input. -/
theorem claimC1_aggregation_unreachable :
    adjudicate_claim c1Norm c1Match c1Apply c1Extracted c1Policy =
      .error ["total_allowed_amount"] ∧
    (adjudicationPipeline c1Norm c1Match c1Apply c1Extracted c1Policy).payable = 5000 ∧
    (adjudicationPipeline c1Norm c1Match c1Apply c1Extracted c1Policy).payable ≤
      c1Policy.sum_insured ∧
    (adjudicationPipeline c1Norm c1Match c1Apply c1Extracted c1Policy).adjustments_log =
      [.irdaiNonPayable ["Comb"] 50, .coPayment 10 1000, .sumInsuredCap 5000] := by
  have hstA : c1ItemA.status = "Allowed" := by
    norm_num [AdjudicatedLineItem.status, c1ItemA]
  have hstB : c1ItemB.status = "Disallowed" := by
    norm_num [AdjudicatedLineItem.status, c1ItemB]
  have hnp : (identify_non_payable_items (initItems c1Extracted.line_items) c1Norm).map
      (fun x => x.description) = ["Comb"] := rfl
  have h1 : step1MarkItems (initItems c1Extracted.line_items) ["Comb"] = [c1ItemA, c1ItemB] := rfl
  have helig : eligibleItems [c1ItemA, c1ItemB] = [c1ItemA] := by
    simp [eligibleItems, hstA, hstB]
  have hfinal : step3FinalItems c1Policy c1Match c1Apply [c1ItemA, c1ItemB] =
      [c1ItemA, c1ItemB] := by
    simp [step3FinalItems, helig, hstA, hstB, ruleApplies, c1Match]
  have ht : finalTotalAllowed [c1ItemA, c1ItemB] = 10000 := by
    have : finalTotalAllowed [c1ItemA, c1ItemB] = ([10000, 0] : List ℚ).sum := rfl
    rw [this]; norm_num
  have h50 : irdaiDisallowedTotal (initItems c1Extracted.line_items) ["Comb"] = 50 := by
    have : irdaiDisallowedTotal (initItems c1Extracted.line_items) ["Comb"] =
        ([50] : List ℚ).sum := rfl
    rw [this]; norm_num
  have hlog1 : step1Log (initItems c1Extracted.line_items) ["Comb"] =
      [.irdaiNonPayable ["Comb"] 50] := by
    rw [step1Log, h50]
    have hn : sortedUniqueNames (irdaiHitNames (initItems c1Extracted.line_items) ["Comb"]) =
        ["Comb"] := rfl
    rw [hn]
    norm_num
  have hpdt : policyDisallowedTotal [c1ItemA, c1ItemB] = 0 := by
    simp only [policyDisallowedTotal, List.filter, hstA, hstB]
    simp [show c1ItemA.reason = none from rfl, show c1ItemA.disallowed_amount = 0 from rfl,
      irdaiReason]
  have hlog3 : step3Log [c1ItemA, c1ItemB] = [] := by
    rw [step3Log, hpdt]; norm_num
  have hco : coPaymentAmount c1Policy 10000 = 1000 := by
    rw [coPaymentAmount]
    norm_num [c1Policy]
  have hpay : finalPayable c1Policy 10000 = 5000 := by
    rw [finalPayable, hco]
    have : c1Policy.sum_insured = 5000 := rfl
    rw [this]; norm_num
  have hlog4 : step4Log c1Policy 10000 = [.coPayment 10 1000, .sumInsuredCap 5000] := by
    rw [step4Log, hpay, hco]
    have h10 : c1Policy.co_payment_percentage = 10 := rfl
    have h5k : c1Policy.sum_insured = 5000 := rfl
    rw [h10, h5k]
    norm_num
  have hpipe : adjudicationPipeline c1Norm c1Match c1Apply c1Extracted c1Policy =
      { finalItems := [c1ItemA, c1ItemB]
      , adjustments_log := [.irdaiNonPayable ["Comb"] 50, .coPayment 10 1000, .sumInsuredCap 5000]
      , total_claimed := 10050
      , payable := 5000 } := by
    rw [adjudicationPipeline, hnp, h1, hfinal, ht, hlog1]
    rw [hlog3, hlog4, hpay]
    rfl
  refine ⟨rfl, ?_, ?_, ?_⟩ <;> rw [hpipe]
  · norm_num [c1Policy]

/-- Claim C2: every `AdjudicatedLineItem` held at every stage of the
adjudication satisfies `allowed_amount + disallowed_amount = total_amount`
within 1e-6, provided every item returned by the Rule-Apply oracle itself
satisfies the equation: initialization sets `allowed = total, disallowed = 0`,
the non-payable stage sets `allowed = 0, disallowed = total`, and no other
stage alters the amounts. -/
theorem claimC2_amount_invariant (ls : List LineItem) (normO ruleO : String → Option String)
    (applyO : AdjudicatedLineItem → Option RuleSpec → ℚ → AdjudicatedLineItem) (p : Policy)
    (hOracle : ∀ it spec si, amountInvariant (applyO it spec si)) :
    (∀ it ∈ initItems ls, amountInvariant it) ∧
    (∀ it ∈ step1MarkItems (initItems ls)
        ((identify_non_payable_items (initItems ls) normO).map (·.description)),
      amountInvariant it) ∧
    (∀ it ∈ (adjudicationPipeline normO ruleO applyO
        ⟨"h", "p", none, "d", "d", none, ls, 0⟩ p).finalItems, amountInvariant it) := by
  refine ⟨initItems_invariant ls, ?_, ?_⟩
  · exact step1MarkItems_invariant _ _ (initItems_invariant ls)
  · have : (adjudicationPipeline normO ruleO applyO ⟨"h", "p", none, "d", "d", none, ls, 0⟩ p).finalItems =
        step3FinalItems p ruleO applyO
          (step1MarkItems (initItems ls)
            ((identify_non_payable_items (initItems ls) normO).map (·.description))) := rfl
    rw [this]
    exact step3FinalItems_invariant _ _ _ _ hOracle
      (step1MarkItems_invariant _ _ (initItems_invariant ls))

/-- Witness for C2: the invariant theorem applied to a one-item claim whose
item is marked non-payable, with a Rule-Apply oracle that satisfies the
amount equation. -/
theorem claimC2_amount_invariant_witness :
    (∀ it ∈ initItems [⟨"Syringe", 1, 10, 10⟩], amountInvariant it) ∧
    (∀ it ∈ step1MarkItems (initItems [⟨"Syringe", 1, 10, 10⟩])
        ((identify_non_payable_items (initItems [⟨"Syringe", 1, 10, 10⟩])
            (fun _ => some "Non-Payable Item")).map (·.description)),
      amountInvariant it) ∧
    (∀ it ∈ (adjudicationPipeline (fun _ => some "Non-Payable Item") (fun _ => none)
        (fun it _ _ => { it with allowed_amount := 0, disallowed_amount := it.total_amount })
        ⟨"h", "p", none, "d", "d", none, [⟨"Syringe", 1, 10, 10⟩], 0⟩
        ⟨100, 0, []⟩).finalItems, amountInvariant it) :=
  claimC2_amount_invariant [⟨"Syringe", 1, 10, 10⟩] (fun _ => some "Non-Payable Item")
    (fun _ => none)
    (fun it _ _ => { it with allowed_amount := 0, disallowed_amount := it.total_amount })
    ⟨100, 0, []⟩
    (by intro it spec si; simp [amountInvariant])

/-- Claim C3: for every input, `adjudicate_claim` fails while constructing
the initial `AdjudicatedClaim` and never returns a result: the constructor
is passed the undeclared `total_amount_reimbursed` keyword while the
schema's required `total_allowed_amount` field is never supplied, so the
embedded constructor check reports exactly that missing field. -/
theorem claimC3_constructor_always_fails :
    ("total_amount_reimbursed" ∈ adjudicateClaimInitKwargs ∧
     "total_amount_reimbursed" ∉ adjudicatedClaimAllFields ∧
     "total_allowed_amount" ∈ adjudicatedClaimRequiredFields ∧
     "total_allowed_amount" ∉ adjudicateClaimInitKwargs) ∧
    ∀ (normOracle ruleMatchOracle : String → Option String)
      (applyOracle : AdjudicatedLineItem → Option RuleSpec → ℚ → AdjudicatedLineItem)
      (extracted : ExtractedData) (p : Policy),
      adjudicate_claim normOracle ruleMatchOracle applyOracle extracted p =
        .error ["total_allowed_amount"] := by
  constructor
  · refine ⟨?_, ?_, ?_, ?_⟩ <;> decide
  · intro normOracle ruleMatchOracle applyOracle extracted p
    rfl

/-- Claim C4 (code bug): when both providers report `bill_no = "X123"` with
confidence 0.8, `mergeHeaders` elevates the merged confidence to exactly 1.0
even though 0.8 does not exceed the 0.9 threshold that the helper
`_both_conf_over_90` names and documents: the gate it actually evaluates is
`≥ 0.7`, and no configurable `CONFIDENCE_AGREEMENT_THRESHOLD` constant
exists in the code. A field that is null on both sides still merges to
`(null, 0.5)` as the claim states. -/
theorem claimC4_gate_below_documented_threshold :
    (mergeHeaders c4Gemini c4Gpt).bill_no = ⟨some "X123", 1⟩ ∧
    ¬ ((4 : ℚ) / 5 > 9 / 10) ∧
    (mergeHeaders c4Gemini c4Gpt).hospital_name = ⟨none, 1 / 2⟩ := by
  have hm : descriptionsMatch "X123" "X123" = (true, 1) := by
    rw [descriptionsMatch, show normalizeText "X123" = "x123" from by decide]
    rw [if_pos ⟨by decide, rfl⟩]
  have hb : (mergeHeaders c4Gemini c4Gpt).bill_no =
      mergeStringField ⟨some "X123", some (4 / 5)⟩ ⟨some "X123", some (4 / 5)⟩ := rfl
  have hh : (mergeHeaders c4Gemini c4Gpt).hospital_name =
      mergeStringField ⟨none, none⟩ ⟨none, none⟩ := rfl
  refine ⟨?_, by norm_num, ?_⟩
  · rw [hb]
    norm_num [mergeStringField, hm, chooseValueAndConf, bothConfOver90]
    simp
  · rw [hh, mergeStringField]
    norm_num

/-- Claim C5 (amended): the line-item merge coincides with the spec-side
restatement `specMergeLineItems` — greedy matching over descriptions in
descending score order with threshold 0.85 and single use, one merged item
per pair when the three numbers agree under round-half-away-from-zero
equality and both originals at confidence 0.5 otherwise, unmatched items
passed through at confidence 0.5 — where the merged-item confidence tier is
1.0 exactly when all four fields on both sides carry confidence ≥ 0.7 (the
hardcoded gate), not the claimed 0.9-level agreement threshold, and each
value comes from the higher-confidence side with ties within 1e-9 resolved
to the first provider. -/
theorem claimC5_merge_refines_spec (gItems oItems : List ConfItem) :
    mergeLineItems gItems oItems = specMergeLineItems gItems oItems :=
  mergeLineItems_eq_specMergeLineItems gItems oItems

/-- Counterexample for C5 as literally stated: two identical items whose
field confidences are all 0.8 merge into a single item with all four
confidences elevated to 1.0, although 0.8 does not exceed 0.9. -/
theorem claimC5_tier_counterexample :
    mergeLineItems [c5Gemini] [c5Gpt] =
      [⟨⟨some "CBC Test", some 1⟩, ⟨some 1, some 1⟩, ⟨some 100, some 1⟩,
        ⟨some 100, some 1⟩⟩] ∧
    ¬ ((4 : ℚ) / 5 > 9 / 10) := by
  have hdm : descriptionsMatch "CBC Test" "CBC Test" = (true, 1) := by
    rw [descriptionsMatch, show normalizeText "CBC Test" = "cbc test" from by decide]
    rw [if_pos ⟨by decide, rfl⟩]
  have hcand : matchCandidates [c5Gemini] [c5Gpt] = [(0, 0, 1)] := by
    rw [matchCandidates]
    simp [c5Gemini, c5Gpt, List.enum, hdm]
  have hpairs : greedyMatchPairs [c5Gemini] [c5Gpt] = [(0, 0, 1)] := by
    rw [greedyMatchPairs, hcand]
    norm_num [sortCandDesc, insertCandDesc]
  have hmp : mergePair c5Gemini c5Gpt =
      [⟨⟨some "CBC Test", some 1⟩, ⟨some 1, some 1⟩, ⟨some 100, some 1⟩,
        ⟨some 100, some 1⟩⟩] := by
    rw [mergePair]
    norm_num [c5Gemini, c5Gpt, bothConfOver90, chooseValueAndConf]
  refine ⟨?_, by norm_num⟩
  rw [mergeLineItems, hpairs]
  simp [hmp]

/-- Claim C6 (amended): `descriptionsMatch` is symmetric on the exact-match
and token-subset paths unconditionally, and symmetric overall for every pair
of strings on which the difflib-style fuzzy ratio is itself symmetric; the
ratio, hence the function, is not symmetric in general. -/
theorem claimC6_symm_of_fuzzy_symm (a b : String)
    (h : fuzzyScore (normalizeText a) (normalizeText b) =
         fuzzyScore (normalizeText b) (normalizeText a)) :
    descriptionsMatch a b = descriptionsMatch b a := by
  rw [descriptionsMatch, descriptionsMatch]
  by_cases h1 : normalizeText a ≠ "" ∧ normalizeText a = normalizeText b
  · have h1' : normalizeText b ≠ "" ∧ normalizeText b = normalizeText a :=
      ⟨h1.2 ▸ h1.1, h1.2.symm⟩
    rw [if_pos h1, if_pos h1']
  · have h1' : ¬ (normalizeText b ≠ "" ∧ normalizeText b = normalizeText a) := by
      intro hc
      exact h1 ⟨hc.2 ▸ hc.1, hc.2.symm⟩
    rw [if_neg h1, if_neg h1']
    by_cases h3 : subsetTokens (pySplit (normalizeText a).toList) (pySplit (normalizeText b).toList) = true ∨
        subsetTokens (pySplit (normalizeText b).toList) (pySplit (normalizeText a).toList) = true
    · rw [if_pos h3, if_pos (Or.symm h3)]
    · have h3' : ¬ (subsetTokens (pySplit (normalizeText b).toList) (pySplit (normalizeText a).toList) = true ∨
          subsetTokens (pySplit (normalizeText a).toList) (pySplit (normalizeText b).toList) = true) := by
        intro hc
        exact h3 (Or.symm hc)
      rw [if_neg h3, if_neg h3', h]

/-- Witness for C6: the symmetry theorem applied to two concrete lab-test
descriptions whose fuzzy ratio is symmetric. -/
theorem claimC6_symm_witness :
    descriptionsMatch "cbc test" "lipid profile" = descriptionsMatch "lipid profile" "cbc test" :=
  claimC6_symm_of_fuzzy_symm "cbc test" "lipid profile" (by
    rw [show normalizeText "cbc test" = "cbc test" from by decide,
      show normalizeText "lipid profile" = "lipid profile" from by decide]
    rw [fuzzyScore, fuzzyScore,
      show fuzzyPrep "cbc test" = "cbc test".toList from by decide,
      show fuzzyPrep "lipid profile" = "lipid profile".toList from by decide,
      show matchesTotal "cbc test".toList "lipid profile".toList = 2 from by decide,
      show matchesTotal "lipid profile".toList "cbc test".toList = 2 from by decide]
    norm_num)

/-- Counterexample for C6 as literally stated: `descriptionsMatch` is not
symmetric, because the difflib-style ratio is direction-dependent —
on ("ab", "ba bb") the scores are 4/7 one way and 2/7 the other. -/
theorem claimC6_asymmetry_counterexample :
    descriptionsMatch "ab" "ba bb" ≠ descriptionsMatch "ba bb" "ab" := by
  have hn1 : normalizeText "ab" = "ab" := by decide
  have hn2 : normalizeText "ba bb" = "ba bb" := by decide
  have hf1 : fuzzyScore "ab" "ba bb" = 4 / 7 := by
    rw [fuzzyScore, show fuzzyPrep "ab" = ['a', 'b'] from by decide,
      show fuzzyPrep "ba bb" = ['b', 'a', ' ', 'b', 'b'] from by decide,
      show matchesTotal ['a', 'b'] ['b', 'a', ' ', 'b', 'b'] = 2 from by decide]
    norm_num
  have hf2 : fuzzyScore "ba bb" "ab" = 2 / 7 := by
    rw [fuzzyScore, show fuzzyPrep "ab" = ['a', 'b'] from by decide,
      show fuzzyPrep "ba bb" = ['b', 'a', ' ', 'b', 'b'] from by decide,
      show matchesTotal ['b', 'a', ' ', 'b', 'b'] ['a', 'b'] = 1 from by decide]
    norm_num
  have e1 : descriptionsMatch "ab" "ba bb" = (false, 4 / 7) := by
    rw [descriptionsMatch, hn1, hn2]
    rw [if_neg (by decide : ¬ (("ab" : String) ≠ "" ∧ ("ab" : String) = "ba bb"))]
    rw [if_neg (by decide : ¬ (subsetTokens (pySplit ("ab" : String).toList)
        (pySplit ("ba bb" : String).toList) = true ∨
      subsetTokens (pySplit ("ba bb" : String).toList) (pySplit ("ab" : String).toList) = true))]
    rw [hf1]
    rw [if_neg (by norm_num : ¬ ((9 : ℚ) / 10 ≤ 4 / 7))]
    rw [if_neg (by norm_num : ¬ ((8 : ℚ) / 10 ≤ 0))]
    norm_num
  have e2 : descriptionsMatch "ba bb" "ab" = (false, 2 / 7) := by
    rw [descriptionsMatch, hn1, hn2]
    rw [if_neg (by decide : ¬ (("ba bb" : String) ≠ "" ∧ ("ba bb" : String) = "ab"))]
    rw [if_neg (by decide : ¬ (subsetTokens (pySplit ("ba bb" : String).toList)
        (pySplit ("ab" : String).toList) = true ∨
      subsetTokens (pySplit ("ab" : String).toList) (pySplit ("ba bb" : String).toList) = true))]
    rw [hf2]
    rw [if_neg (by norm_num : ¬ ((9 : ℚ) / 10 ≤ 2 / 7))]
    rw [if_neg (by norm_num : ¬ ((8 : ℚ) / 10 ≤ 0))]
    norm_num
  rw [e1, e2]
  intro hc
  have := congrArg Prod.snd hc
  norm_num at this

/-- Claim C7 (code bug): the non-payable stage never performs the claimed
marking.  For a matched item the loop's first statement is the line-322
write `item.status = "Disallowed"`, which raises on the setterless computed
property before the amounts of lines 323-325 are set, so the stage raises
exactly when some item is classified non-payable — in particular on the
concrete 50-rupee comb of `c7Items` — and otherwise returns every item
unchanged: no item is ever marked with zeroed amounts and the IRDAI reason,
excluded from later stages, or aggregated into a log entry as the claim
describes. -/
theorem claimC7_marking_raises :
    (∀ (items : List AdjudicatedLineItem) (nps : List String),
      step1Run items nps = .ok items ∨ step1Run items nps = .error statusSetterError) ∧
    (∀ (items : List AdjudicatedLineItem) (nps : List String),
      step1Run items nps = .error statusSetterError ↔
        items.any (fun it => nps.contains it.description) = true) ∧
    step1Run (initItems c7Items)
        ((identify_non_payable_items (initItems c7Items) c7Norm).map (·.description)) =
      .error statusSetterError := by
  refine ⟨?_, ?_, ?_⟩
  · intro items nps
    rcases step1Run_spec nps items with ⟨-, he⟩ | ⟨-, ho⟩
    · exact Or.inr he
    · exact Or.inl ho
  · intro items nps
    constructor
    · intro he
      rcases step1Run_spec nps items with ⟨ha, -⟩ | ⟨-, ho⟩
      · exact ha
      · rw [ho] at he
        exact absurd he (by simp)
    · intro ha
      rcases step1Run_spec nps items with ⟨-, he⟩ | ⟨hf, -⟩
      · exact he
      · rw [ha] at hf
        exact absurd hf (by simp)
  · rfl

/-- Claim C8 (amended): the rule-matching stage issues exactly one
Rule-Match call per item not yet disallowed and none for disallowed items
(stated as a count identity); an eligible item whose returned rule name is
null or outside the policy's sub-limit keys passes through unchanged, fully
allowed at its original total; and the separately logged aggregate counts
the disallowed amounts only of final items whose derived status is not
"Disallowed" and whose reason is not the IRDAI one — so an item disallowed
in full by a rule is excluded from the aggregate — with the entry appended
exactly when that aggregate is positive. -/
theorem claimC8_rule_stage :
    (∀ (items : List AdjudicatedLineItem) (d : String),
      (matchCalls items).count d =
        items.countP fun it => (!decide (it.status = "Disallowed")) && (it.description == d)) ∧
    (∀ (ls : List LineItem) (normO ruleO : String → Option String)
        (applyO : AdjudicatedLineItem → Option RuleSpec → ℚ → AdjudicatedLineItem) (p : Policy),
      ∀ it ∈ eligibleItems (step1MarkItems (initItems ls)
          ((identify_non_payable_items (initItems ls) normO).map (·.description))),
        (ruleO it.description = none ∨
          ∀ r, ruleO it.description = some r → r ∉ subLimitKeys p) →
        it ∈ step3FinalItems p ruleO applyO (step1MarkItems (initItems ls)
          ((identify_non_payable_items (initItems ls) normO).map (·.description))) ∧
        it.allowed_amount = it.total_amount) ∧
    (∀ finalItems : List AdjudicatedLineItem,
      policyDisallowedTotal finalItems =
        (finalItems.map fun it =>
          if it.status ≠ "Disallowed" ∧ it.reason ≠ some irdaiReason then
            it.disallowed_amount
          else 0).sum ∧
      step3Log finalItems =
        (if 0 < policyDisallowedTotal finalItems then
          [.policyDisallowed (policyDisallowedTotal finalItems)]
        else [])) := by
  refine ⟨?_, ?_, ?_⟩
  · intro items d
    rw [matchCalls, eligibleItems, List.count, List.countP_map, List.countP_filter]
    apply List.countP_congr
    intro it _
    simp [Function.comp, Bool.and_comm, decide_not]
  · intro ls normO ruleO applyO p it hit hrule
    have hnr : ruleApplies p (ruleO it.description) = false := by
      rcases hrule with hn | hs
      · rw [hn]
        rfl
      · cases hro : ruleO it.description with
        | none => rfl
        | some r =>
          have hnotin := hs r hro
          have hcf : (subLimitKeys p).contains r = false := by
            rw [← Bool.not_eq_true, List.contains_iff_exists_mem_beq]
            push_neg
            intro x hx
            simp only [ne_eq, beq_iff_eq]
            rintro rfl
            exact hnotin hx
          simp only [ruleApplies, hcf, Bool.and_false]
    refine ⟨?_, eligible_allowed_eq_total ls normO it hit⟩
    rw [step3FinalItems]
    refine List.mem_append.mpr (Or.inl (List.mem_append.mpr (Or.inl ?_)))
    exact List.mem_filter.mpr ⟨hit, by simp [hnr]⟩
  · intro finalItems
    constructor
    · rw [policyDisallowedTotal, sum_map_filter]
      congr 1
      apply List.map_congr_left
      intro it _
      by_cases hp : it.status ≠ "Disallowed" ∧ it.reason ≠ some irdaiReason
      · rw [if_pos (decide_eq_true hp), if_pos hp]
      · rw [if_neg ?_, if_neg hp]
        simp only [decide_eq_true_eq]
        exact hp
    · rw [step3Log]

/-- Witness for C8: the pass-through clause applied to a concrete 200-rupee
item with a never-matching Rule-Match oracle. -/
theorem claimC8_rule_stage_witness :
    (⟨⟨"X Ray", 1, 200, 200⟩, 200, 0, none⟩ : AdjudicatedLineItem) ∈
      step3FinalItems ⟨1000, 0, []⟩ (fun _ => none) (fun it _ _ => it)
        (step1MarkItems (initItems [⟨"X Ray", 1, 200, 200⟩])
          ((identify_non_payable_items (initItems [⟨"X Ray", 1, 200, 200⟩])
            (fun _ => none)).map (·.description))) ∧
    (⟨⟨"X Ray", 1, 200, 200⟩, 200, 0, none⟩ : AdjudicatedLineItem).allowed_amount =
      (⟨⟨"X Ray", 1, 200, 200⟩, 200, 0, none⟩ : AdjudicatedLineItem).total_amount := by
  have hst : (⟨⟨"X Ray", 1, 200, 200⟩, 200, 0, none⟩ : AdjudicatedLineItem).status =
      "Allowed" := by
    norm_num [AdjudicatedLineItem.status]
  have hs1 : step1MarkItems (initItems [⟨"X Ray", 1, 200, 200⟩])
      ((identify_non_payable_items (initItems [⟨"X Ray", 1, 200, 200⟩])
        (fun _ => none)).map (·.description)) =
      [⟨⟨"X Ray", 1, 200, 200⟩, 200, 0, none⟩] := rfl
  exact claimC8_rule_stage.2.1 [⟨"X Ray", 1, 200, 200⟩] (fun _ => none) (fun _ => none)
    (fun it _ _ => it) ⟨1000, 0, []⟩ _
    (by rw [hs1]; exact List.mem_filter.mpr ⟨List.mem_singleton.mpr rfl, by simp [hst]⟩)
    (Or.inl rfl)

/-- Counterexample for C8 as literally stated: an item disallowed in full
by rule application (its sum-100 disallowed amount gives it derived status
"Disallowed") is excluded from the stage's aggregate, so the adjustments
log stays empty even though 100 rupees were individually disallowed by the
rule stage. -/
theorem claimC8_full_disallow_counterexample :
    (adjudicationPipeline c8Norm c8Match c8Apply c8Extracted c8Policy).adjustments_log = [] ∧
    ((adjudicationPipeline c8Norm c8Match c8Apply c8Extracted
        c8Policy).finalItems.map (·.disallowed_amount)).sum = 100 := by
  have hstA : (⟨⟨"Surgery", 1, 100, 100⟩, 100, 0, none⟩ : AdjudicatedLineItem).status =
      "Allowed" := by
    norm_num [AdjudicatedLineItem.status]
  have hstU : (⟨⟨"Surgery", 1, 100, 100⟩, 0, 100, some "Capped by sub-limit"⟩ :
      AdjudicatedLineItem).status = "Disallowed" := by
    norm_num [AdjudicatedLineItem.status]
  have hnps : (identify_non_payable_items (initItems c8Extracted.line_items) c8Norm).map
      (·.description) = [] := rfl
  have hs1 : step1MarkItems (initItems c8Extracted.line_items) [] =
      [⟨⟨"Surgery", 1, 100, 100⟩, 100, 0, none⟩] := rfl
  have helig : eligibleItems [⟨⟨"Surgery", 1, 100, 100⟩, 100, 0, none⟩] =
      [⟨⟨"Surgery", 1, 100, 100⟩, 100, 0, none⟩] := by
    simp [eligibleItems, hstA]
  have happ : ruleApplies c8Policy (c8Match "Surgery") = true := rfl
  have hfinal : step3FinalItems c8Policy c8Match c8Apply
      [⟨⟨"Surgery", 1, 100, 100⟩, 100, 0, none⟩] =
      [⟨⟨"Surgery", 1, 100, 100⟩, 0, 100, some "Capped by sub-limit"⟩] := by
    rw [step3FinalItems, helig]
    simp only [happ, List.filter_cons, List.filter_nil]
    simp [apply_policy_rule_with_llm_tools, hstA, hstU, c8Apply]
  have hpdt : policyDisallowedTotal
      [⟨⟨"Surgery", 1, 100, 100⟩, 0, 100, some "Capped by sub-limit"⟩] = 0 := by
    simp [policyDisallowedTotal, hstU]
  have hlog3 : step3Log
      [⟨⟨"Surgery", 1, 100, 100⟩, 0, 100, some "Capped by sub-limit"⟩] = [] := by
    rw [step3Log, hpdt]
    norm_num
  have ht : finalTotalAllowed
      [⟨⟨"Surgery", 1, 100, 100⟩, 0, 100, some "Capped by sub-limit"⟩] = 0 := by
    rw [show finalTotalAllowed
      [⟨⟨"Surgery", 1, 100, 100⟩, 0, 100, some "Capped by sub-limit"⟩] =
        ([0] : List ℚ).sum from rfl]
    norm_num
  have hlog1 : step1Log (initItems c8Extracted.line_items) [] = [] := by
    rw [step1Log,
      show irdaiDisallowedTotal (initItems c8Extracted.line_items) [] = ([] : List ℚ).sum
        from rfl]
    norm_num
  have hco : coPaymentAmount c8Policy 0 = 0 := by
    rw [coPaymentAmount, show c8Policy.co_payment_percentage = 0 from rfl]
    norm_num
  have hpay : finalPayable c8Policy 0 = 0 := by
    rw [finalPayable, hco, show c8Policy.sum_insured = 100000 from rfl]
    norm_num
  have hlog4 : step4Log c8Policy 0 = [] := by
    rw [step4Log, hpay, hco, show c8Policy.co_payment_percentage = 0 from rfl]
    norm_num
  constructor
  · rw [adjudicationPipeline, hnps, hs1, hfinal, ht, hlog1, hlog3, hlog4]
    rfl
  · rw [adjudicationPipeline, hnps, hs1, hfinal]
    rw [show (List.map (fun x => x.disallowed_amount)
      [(⟨⟨"Surgery", 1, 100, 100⟩, 0, 100, some "Capped by sub-limit"⟩ :
        AdjudicatedLineItem)]).sum = ([100] : List ℚ).sum from rfl]
    norm_num

/-- Claim C9: `AdjudicatedLineItem.status` is a derived property computed
from the amounts exactly as specified — "Allowed" iff the amounts sum to 0
or `allowed > 0 ∧ disallowed = 0`, "Partially Allowed" iff both amounts are
positive, and "Disallowed" in precisely the remaining cases. -/
theorem claimC9_status_characterization (it : AdjudicatedLineItem) :
    (it.status = "Allowed" ↔
      (it.allowed_amount + it.disallowed_amount = 0 ∨
        (it.allowed_amount > 0 ∧ it.disallowed_amount = 0)))
  ∧ (it.status = "Partially Allowed" ↔
      (it.allowed_amount > 0 ∧ it.disallowed_amount > 0))
  ∧ (it.status = "Disallowed" ↔
      (¬ it.allowed_amount + it.disallowed_amount = 0 ∧
       ¬ (it.allowed_amount > 0 ∧ it.disallowed_amount > 0) ∧
       ¬ (it.allowed_amount > 0 ∧ it.disallowed_amount = 0))) := by
  have sPA : ("Allowed" : String) ≠ "Partially Allowed" := by decide
  have sD : ("Allowed" : String) ≠ "Disallowed" := by decide
  have sPD : ("Partially Allowed" : String) ≠ "Disallowed" := by decide
  unfold AdjudicatedLineItem.status
  by_cases h1 : it.allowed_amount + it.disallowed_amount = 0
  · rw [if_pos h1]
    refine ⟨by simp [h1], ⟨fun h => absurd h sPA, fun ⟨ha, hd⟩ => (by linarith : False).elim⟩,
      ⟨fun h => absurd h sD, fun ⟨hn, _⟩ => absurd h1 hn⟩⟩
  · rw [if_neg h1]
    by_cases h2 : it.allowed_amount > 0 ∧ it.disallowed_amount > 0
    · rw [if_pos h2]
      refine ⟨⟨fun h => absurd h.symm sPA, ?_⟩, by simp [h2], ⟨fun h => absurd h sPD, fun hn => absurd h2 hn.2.1⟩⟩
      rintro (h | ⟨ha, hd⟩)
      · exact absurd h h1
      · exact absurd hd h2.2.ne'
    · rw [if_neg h2]
      by_cases h3 : it.allowed_amount > 0 ∧ it.disallowed_amount = 0
      · rw [if_pos h3]
        refine ⟨by simp [h3], ⟨fun h => absurd h sPA, fun hc => absurd hc h2⟩,
          ⟨fun h => absurd h sD, fun hn => absurd h3 hn.2.2⟩⟩
      · rw [if_neg h3]
        refine ⟨⟨fun h => absurd h.symm sD, ?_⟩, ⟨fun h => absurd h.symm sPD, fun hc => absurd hc h2⟩,
          by simp [h1, h2, h3]⟩
        rintro (h | hc)
        · exact absurd h h1
        · exact absurd hc h3

/-- Claim C10: whenever either description normalizes to the empty string,
`descriptionsMatch` returns `(true, 0.9)` regardless of the other
description (the empty token list is a subset of every token list); since
0.9 clears the 0.85 acceptance threshold, an item with an empty normalized
description is greedily paired with an arbitrary item during the line-item
merge. -/
theorem claimC10_empty_description_matches :
    (∀ a b : String, normalizeText a = "" → descriptionsMatch a b = (true, 9 / 10)) ∧
    (∀ a b : String, normalizeText b = "" → descriptionsMatch a b = (true, 9 / 10)) ∧
    (∀ g o : ConfItem, normalizeText (g.description.value.getD "") = "" →
      greedyMatchPairs [g] [o] = [(0, 0, 9 / 10)]) ∧
    (85 / 100 : ℚ) ≤ 9 / 10 := by
  refine ⟨descriptionsMatch_of_empty, descriptionsMatch_of_empty_right, ?_, by norm_num⟩
  intro g o h
  rw [greedyMatchPairs, matchCandidates_single_empty g o h]
  norm_num [sortCandDesc, insertCandDesc]

/-- Witness for C10: the theorem applied to a punctuation-only description
(empty after normalization), in both argument positions, and to a concrete
missing-description item that gets paired with a surgeon-fee item. -/
theorem claimC10_empty_description_witness :
    descriptionsMatch " !" "Paracetamol 650" = (true, 9 / 10) ∧
    descriptionsMatch "Paracetamol 650" " !" = (true, 9 / 10) ∧
    greedyMatchPairs [⟨⟨none, some 1⟩, ⟨some 1, some 1⟩, ⟨some 5, some 1⟩, ⟨some 5, some 1⟩⟩]
      [⟨⟨some "Surgeon Fee", some 1⟩, ⟨some 1, some 1⟩, ⟨some 900, some 1⟩, ⟨some 900, some 1⟩⟩] =
      [(0, 0, 9 / 10)] :=
  ⟨claimC10_empty_description_matches.1 " !" "Paracetamol 650" (by decide),
   claimC10_empty_description_matches.2.1 "Paracetamol 650" " !" (by decide),
   claimC10_empty_description_matches.2.2.1 _ _ (by decide)⟩

end Mediclaim
